import Mathlib

/-!
Verification of the RoamWise backend v2 routing core.

This file gives a shallow embedding of the algorithmic core of the backend:

* `routes/route.js` — the POST /api/route orchestrator (cache key, LRU+TTL
  cache, circuit breaker, ORS secondary provider, OSRM primary provider with
  the constraint-relaxation retry, failure classification);
* `src/ops/cache-matrix.js` — the 60s travel-matrix cache with 5-minute
  time buckets;
* `routes/sar.js` — `searchAlongRoute` (downsampling, candidate dedup,
  detour computation, filter/sort/truncate);
* `routes/planner.js` — origin/destination resolution and the greedy
  nearest-neighbor ordering of POST /planner/plan-day.

Modelling conventions: JavaScript numbers (timestamps in ms, durations in
seconds, coordinates) are modelled as exact rationals `ℚ`; a JS number that
may be `Infinity`/`NaN`/`undefined` where the code tests `Number.isFinite`
or nullish-ness is modelled as `Option ℚ` (`none` = not a finite number).
External providers (OSRM, ORS, Google matrix/places — their client modules
are not part of this repository's core sources) are injected as oracle
parameters, and each handler returns, besides its response and updated
state, the trace of upstream calls it performed.  `Math.log1p` is modelled
by `Real.log (1 + ·)`, which makes the SAR sort comparator classically
(not computably) decidable — exactly the point where the JS float
computation leaves the executable fragment.
-/

set_option maxHeartbeats 1000000

namespace Roam

/-- Character lists; cache keys are JS strings, modelled as `List Char`. -/
abbrev Chars := List Char

/-- Decimal digit characters, used when rendering a number into a template
string or `toFixed` output.  Arguments outside 0..9 (never produced by the
callers below) map to a fallback character. -/
def digitChar : ℕ → Char
  | 0 => '0' | 1 => '1' | 2 => '2' | 3 => '3' | 4 => '4'
  | 5 => '5' | 6 => '6' | 7 => '7' | 8 => '8' | 9 => '9'
  | _ => '*'

/-- The characters `digitChar` can produce. -/
def digitChars : Chars := ['0','1','2','3','4','5','6','7','8','9','*']

/-- Fuel-driven accumulator loop extracting decimal digits, most significant
first (the standard decimal rendering of a natural number). -/
def natCharsGo : ℕ → ℕ → Chars → Chars
  | 0, _, acc => acc
  | fuel+1, n, acc =>
    if n < 10 then digitChar n :: acc
    else natCharsGo fuel (n / 10) (digitChar (n % 10) :: acc)

/-- Decimal rendering of a natural number, e.g. `natChars 120 = "120"`. -/
def natChars (n : ℕ) : Chars := natCharsGo (n + 1) n []

/-- Decimal rendering of an integer (JS `${n}` for an integral number). -/
def intChars : ℤ → Chars
  | .ofNat n => natChars n
  | .negSucc m => '-' :: natChars (m + 1)

/-- Decimal value of a digit character (inverse of `digitChar` on 0..9). -/
def charVal (c : Char) : ℕ := c.toNat - 48

/-- Decode a digit string back to the natural number it renders. -/
def decodeChars (l : Chars) : ℕ := l.foldl (fun a c => 10 * a + charVal c) 0

/-- Left-pad a digit string with zeros to the requested width. -/
def padZeros (d : ℕ) (l : Chars) : Chars := List.replicate (d - l.length) '0' ++ l

/-- JS `Number.prototype.toFixed(d)`: sign of the input, then the integer
digits, a dot, and exactly `d` fraction digits of the value rounded to `d`
decimals (ties towards +∞ after taking the absolute value, per ES spec). -/
def toFixed (d : ℕ) (q : ℚ) : Chars :=
  let n : ℕ := (round (|q| * (10 : ℚ) ^ d)).toNat
  (if q < 0 then ['-'] else []) ++ natChars (n / 10 ^ d) ++ '.' :: padZeros d (natChars (n % 10 ^ d))

/-- JS `Array.prototype.join(sep)` on pre-rendered pieces. -/
def joinSep (sep : Chars) : List Chars → Chars
  | [] => []
  | [x] => x
  | x :: y :: xs => x ++ sep ++ joinSep sep (y :: xs)

/-- JS number truthiness for a possibly-undefined number: `undefined` and
`0` are falsy. -/
def truthyNum : Option ℚ → Bool
  | none => false
  | some x => x != 0

/-- JS string truthiness for a possibly-undefined string: `undefined` and
the empty string are falsy. -/
def truthyStr : Option String → Bool
  | none => false
  | some s => s != ""

/-- A geographic point with both coordinates present and numeric. -/
structure Pt where
  lat : ℚ
  lon : ℚ
deriving DecidableEq

/-! Section: matrix cache (`src/ops/cache-matrix.js`)

The store is the module-level `Map`; we model it as an association list
whose `set` replaces any previous binding of the key, as `Map.set` does. -/

namespace MatrixCache

/-- Cache store: key, insertion timestamp `t` (ms), cached value. -/
abbrev Store (α : Type) := List (Chars × ℚ × α)

/-- The `hashPoints` helper of cache-matrix.js: 4-decimal coordinates joined by `|`. -/
def hashPoints (points : List Pt) : Chars :=
  joinSep ['|'] (points.map fun p => toFixed 4 p.lat ++ ',' :: toFixed 4 p.lon)

/-- The `timeBucket` helper: 5-minute bucket of the departure time (ms since epoch),
falling back to the current time when no explicit time is given. -/
def timeBucket (iso : Option ℚ) (now : ℚ) : ℤ := ⌊(iso.getD now) / 300000⌋

/-- The cache key `mode|pointsHash|bucket` built by `getMatrixCache`. -/
def mkey (mode : Chars) (points : List Pt) (iso : Option ℚ) (now : ℚ) : Chars :=
  mode ++ '|' :: hashPoints points ++ '|' :: intChars (timeBucket iso now)

/-- Result of a cache probe: optional hit value, the computed key, and the
store after any lazy eviction. -/
structure ProbeOut (α : Type) where
  hit : Option α
  key : Chars
  store : Store α
deriving DecidableEq

/-- Lookup `getMatrixCache`: look the key up; a missing entry is a miss; an entry
older than 60 000 ms is deleted and reported as a miss; otherwise hit. -/
def getMatrixCache (store : Store α) (now : ℚ) (mode : Chars) (points : List Pt)
    (iso : Option ℚ) : ProbeOut α :=
  let key := mkey mode points iso now
  match store.find? (fun e => e.1 == key) with
  | none => ⟨none, key, store⟩
  | some e =>
    if now - e.2.1 > 60000 then ⟨none, key, store.eraseP (fun x => x.1 == key)⟩
    else ⟨some e.2.2, key, store⟩

/-- Store `setMatrixCache`: `Map.set` — bind the key, replacing any old binding. -/
def setMatrixCache (store : Store α) (key : Chars) (now : ℚ) (v : α) : Store α :=
  (key, now, v) :: store.eraseP (fun x => x.1 == key)

end MatrixCache

/-! Section: route orchestrator (`routes/route.js`) -/

namespace RouteApi

/-- The `AVOID_MAP` table: user-friendly avoid terms to OSRM exclude classes. -/
def AVOID_MAP : String → Option Chars
  | "tolls" => some ['t','o','l','l']
  | "ferries" => some ['f','e','r','r','y']
  | "highways" => some ['m','o','t','o','r','w','a','y']
  | _ => none

/-- Keep the first occurrence of each element, dropping later duplicates,
as the JS `filter((val, idx, arr) => arr.indexOf(val) === idx)` idiom. -/
def dedupFirst : List Chars → List Chars
  | [] => []
  | x :: xs => x :: dedupFirst (xs.filter (· ≠ x))
termination_by l => l.length
decreasing_by simp only [List.length_cons]; exact Nat.lt_succ_of_le (List.length_filter_le _ _)

/-- The `buildExcludeParam` helper: map avoid terms through `AVOID_MAP`, drop unmapped
terms, dedupe, and join with commas into the OSRM `exclude` parameter. -/
def buildExcludeParam (avoid : List String) : Chars :=
  joinSep [','] (dedupFirst (avoid.filterMap AVOID_MAP))

/-- The `keyFor` helper: route cache key from 5-decimal rounded stops joined with
`->`, prefixed `r:`, plus an `:ex=` suffix when an exclude is present. -/
def keyFor (stops : List Pt) (exclude : Chars) : Chars :=
  'r' :: ':' :: joinSep ['-','>'] (stops.map fun p => toFixed 5 p.lat ++ ',' :: toFixed 5 p.lon)
    ++ (if exclude.isEmpty then [] else ':' :: 'e' :: 'x' :: '=' :: exclude)

/-- Route geometry payload (a GeoJSON LineString), carried verbatim from a
provider response into the cached payload. -/
structure GeoJson where
  coords : List (ℚ × ℚ)
deriving DecidableEq

/-- One OSRM route object: raw distance/duration and geometry. -/
structure OsrmRoute where
  distance : ℚ
  duration : ℚ
  geometry : GeoJson
deriving DecidableEq

/-- Parsed OSRM response body: routing code and routes array. -/
structure OsrmJson where
  code : String
  routes : List OsrmRoute
deriving DecidableEq

/-- Outcome of `callOsrm`: parsed 2xx body, non-2xx status with body text,
or a network/timeout error string (`"timeout"` when the abort fired). -/
inductive OsrmResult
  | okJson (j : OsrmJson)
  | httpErr (status : ℕ) (body : String)
  | netErr (error : String)
deriving DecidableEq

/-- Outcome of `callORS`: a normalized successful route (raw summary
distance/duration plus geometry), or any failure (timeout, non-2xx,
missing feature) — the handler only branches on success vs failure. -/
inductive OrsResult
  | okRoute (distance duration : ℚ) (geometry : GeoJson)
  | fail
deriving DecidableEq

/-- The success payload the handler caches and returns. -/
structure Payload where
  distance_m : ℤ
  duration_s : ℤ
  geometry : GeoJson
  route_retry_relaxed : Bool
deriving DecidableEq

/-- Handler response: a JSON success payload, or an error status/code. -/
inductive Resp
  | ok (p : Payload)
  | err (status : ℕ) (code : String)
deriving DecidableEq

/-- One upstream provider call: ORS, or OSRM with the given exclude
parameter (the retry always passes an empty exclude). -/
inductive UpCall
  | ors
  | osrm (exclude : Chars)
deriving DecidableEq

/-- A validated route request: stops plus the `constraints.avoid` list. -/
structure RouteReq where
  stops : List Pt
  avoid : List String

/-- Environment of one invocation: whether `ORS_API_KEY` is configured,
and the responses the providers would give to the (at most one) ORS call
and the (at most two) OSRM calls, in call order. -/
structure Env where
  orsConfigured : Bool
  ors : OrsResult
  osrm1 : OsrmResult
  osrm2 : OsrmResult
  cacheTtl : ℚ

/-- Module state: the route LRU cache (key, insertedAt, payload) and the
circuit-breaker timestamp `breakerUntil`. -/
structure St where
  cache : List (Chars × ℚ × Payload)
  breakerUntil : ℚ

/-- Modelled from the spec: the `lru-cache` dependency (external to this
repository) serves `get` only within the TTL — §3 `CacheEntry`: an entry is
valid iff `now − insertedAt < TTL`; stale entries behave as absent.  The
LRU size bound (`max: 1000`) is not modelled. -/
def cacheGet (cache : List (Chars × ℚ × Payload)) (ttl now : ℚ) (k : Chars) : Option Payload :=
  match cache.find? (fun e => e.1 == k) with
  | none => none
  | some e => if now - e.2.1 < ttl then some e.2.2 else none

/-- Write `cache.set k payload` at time `now`. -/
def cacheSet (cache : List (Chars × ℚ × Payload)) (k : Chars) (now : ℚ) (p : Payload) :
    List (Chars × ℚ × Payload) :=
  (k, now, p) :: cache

/-- Did `callOsrm` succeed with routing code `Ok`?  This is the negation of
the retry trigger `!first.ok || first.json?.code !== 'Ok'`. -/
def osrmOkCode : OsrmResult → Bool
  | .okJson j => j.code == "Ok"
  | _ => false

/-- Success check used both to accept the retry and to enter the failure
branch: `ok && code === 'Ok' && routes.length` (nonzero). -/
def osrmGood : OsrmResult → Bool
  | .okJson j => j.code == "Ok" && !j.routes.isEmpty
  | _ => false

/-- Build the success payload from the first OSRM route, rounding distance
and duration to integers as the handler does. -/
def osrmPayload (r : OsrmRoute) (relaxed : Bool) : Payload :=
  ⟨round r.distance, round r.duration, r.geometry, relaxed⟩

/-- Failure classification of the final OSRM result:
`first.error === 'timeout' ? 'provider_timeout' : 'provider_error'`. -/
def classifyCode : OsrmResult → String
  | .netErr "timeout" => "provider_timeout"
  | _ => "provider_error"

/-- Breaker update on failure: 60 s cooldown for a 5xx status, 30 s for a
truthy network/timeout error string, otherwise left unchanged (a parsed
2xx body that failed the route checks carries neither field). -/
def openBreaker (r : OsrmResult) (now fallback : ℚ) : ℚ :=
  match r with
  | .httpErr s _ => if 500 ≤ s then now + 60000 else fallback
  | .netErr e => if e ≠ "" then now + 30000 else fallback
  | .okJson _ => fallback

/-- The OSRM phase with the Step-29 retry: first attempt with the exclude
parameter; if it failed or did not return code `Ok`, retry once without
the exclude, accepting the retry only when it is a full success (code `Ok`
and a nonempty routes array), in which case the result is marked relaxed
iff an exclude had been requested.  Returns the final result, the relaxed
flag, and the OSRM calls made. -/
def osrmPhase (env : Env) (exclude : Chars) : OsrmResult × Bool × List UpCall :=
  let first := env.osrm1
  if !osrmOkCode first then
    let second := env.osrm2
    if osrmGood second then (second, !exclude.isEmpty, [.osrm exclude, .osrm []])
    else (first, false, [.osrm exclude, .osrm []])
  else (first, false, [.osrm exclude])

/-- The ORS phase: when avoidance is requested and an ORS key is
configured, call ORS; a success becomes the payload directly (never
relaxed — ORS honors the avoid features), a failure falls through. -/
def orsPhase (env : Env) (req : RouteReq) : Option Payload × List UpCall :=
  if !req.avoid.isEmpty && env.orsConfigured then
    match env.ors with
    | .okRoute d t g => (some ⟨round d, round t, g, false⟩, [.ors])
    | .fail => (none, [.ors])
  else (none, [])

/-- The POST /api/route handler after request validation: cache lookup,
breaker check, optional ORS attempt, OSRM attempt with the single
relaxation retry, failure classification and breaker opening, caching of
the success payload.  Besides the response and new state it returns the
list of upstream calls made, in order. -/
def routeHandler (env : Env) (now : ℚ) (req : RouteReq) (st : St) :
    Resp × St × List UpCall :=
  let exclude := buildExcludeParam req.avoid
  let k := keyFor req.stops exclude
  match cacheGet st.cache env.cacheTtl now k with
  | some hit => (.ok hit, st, [])
  | none =>
    if now < st.breakerUntil then
      (.err 503 "provider_unavailable", st, [])
    else
      match orsPhase env req with
      | (some p, tr) => (.ok p, ⟨cacheSet st.cache k now p, st.breakerUntil⟩, tr)
      | (none, tr) =>
        match osrmPhase env exclude with
        | (firstF, relaxed, osrmTr) =>
          let tr2 := tr ++ osrmTr
          if !osrmGood firstF then
            (.err 502 (classifyCode firstF),
              ⟨st.cache, openBreaker firstF now st.breakerUntil⟩, tr2)
          else
            match firstF with
            | .okJson j =>
              match j.routes with
              | r :: _ =>
                let p := osrmPayload r relaxed
                (.ok p, ⟨cacheSet st.cache k now p, st.breakerUntil⟩, tr2)
              | [] => (.err 500 "internal_error", st, tr2)
            | _ => (.err 500 "internal_error", st, tr2)

/-- Number of calls made to the primary (OSRM) provider in a trace. -/
def primaryCalls (tr : List UpCall) : ℕ :=
  tr.countP fun c => match c with | .osrm _ => true | .ors => false

/-- The subsequence of primary (OSRM) calls in a trace. -/
def osrmCallsOf (tr : List UpCall) : List UpCall :=
  tr.filter fun c => match c with | .osrm _ => true | .ors => false

/-- The run reaches the primary provider: the ORS branch produced no
payload (avoidance not requested, ORS not configured, or ORS failed). -/
def reachesPrimary (env : Env) (req : RouteReq) : Prop :=
  req.avoid = [] ∨ env.orsConfigured = false ∨ env.ors = .fail

/-- Invariant of reachable cache states: a payload stored under a key with
no `:ex=` suffix (the key of every avoidance-free request) never carries
`route_retry_relaxed = true`. -/
def CacheInv (st : St) : Prop :=
  ∀ stops e, st.cache.find? (fun x => x.1 == keyFor stops []) = some e →
    e.2.2.route_retry_relaxed = false

end RouteApi

/-! Section: search along route (`routes/sar.js`) -/

namespace Sar

/-- A raw place item from the places text search, with the fields
`searchAlongRoute` reads.  `locLat`/`locLng` model `location.latitude`/
`location.longitude`, `rlat`/`rlon` the fallback `lat`/`lon` fields. -/
structure RawPlace where
  id : Option String
  displayName : Option String
  name : Option String
  rating : Option ℚ
  userRatingCount : Option ℕ
  locLat : Option ℚ
  locLng : Option ℚ
  rlat : Option ℚ
  rlon : Option ℚ
deriving DecidableEq

/-- A scored SAR result (the enrichment step only adds descriptive fields
to the first few results; it neither filters nor reorders and is omitted). -/
structure Scored where
  place_id : String
  name : Option String
  rating : Option ℚ
  user_ratings_total : Option ℕ
  loc : Pt
  detour_min : ℤ
deriving DecidableEq

/-- A duration matrix as returned by the matrix provider; `none` cells are
non-finite (`Infinity` for unreachable pairs). -/
abbrev DurMatrix := List (List (Option ℚ))

/-- Cell access `matrix.duration_s[i][j]`; out-of-range indexing yields a
non-finite value, as JS `undefined` would fail the `Number.isFinite` test. -/
def mat (m : DurMatrix) (i j : ℕ) : Option ℚ := (m.getD i []).getD j none

/-- Indices sampled by the downsampling loop `for (i=0; i<len; i+=step)`
with `step = max(1, floor(len/20))`, plus the final point when the loop
did not already sample it (the JS test compares object identity, so it
appends exactly when the last sampled index is not `len-1`). -/
def sampleIdxs (len : ℕ) : List ℕ :=
  let step := max 1 (len / 20)
  let idxs := (List.range len).filter fun i => i % step == 0
  if idxs.getLast? == some (len - 1) then idxs else idxs ++ [len - 1]

/-- The inner candidate loop over one search response: skip items with a
falsy id or an already-seen id, otherwise record the id and append the
item.  State is (seen ids, accumulated candidates). -/
def collectStep (items : List RawPlace) (st : List String × List RawPlace) :
    List String × List RawPlace :=
  items.foldl
    (fun st r =>
      match r.id with
      | none => st
      | some i => if i == "" || st.1.contains i then st else (i :: st.1, st.2 ++ [r]))
    st

/-- The outer candidate loop over sampled points: skip failed searches,
fold each response through `collectStep`, and stop once more than 50
unique candidates have accumulated. -/
def collectCands (search : Pt → Option (List RawPlace)) :
    List Pt → List String → List RawPlace → List RawPlace
  | [], _, acc => acc
  | p :: rest, seen, acc =>
    match search p with
    | none => collectCands search rest seen acc
    | some items =>
      match collectStep items (seen, acc) with
      | (seen', acc') =>
        if acc'.length > 50 then acc' else collectCands search rest seen' acc'

/-- Detour seconds `detour_s = (o_to_c + c_to_d) - o_to_d`. -/
def detour_s (o_c c_d o_d : ℚ) : ℚ := (o_c + c_d) - o_d

/-- Detour minutes `detour_min = Math.max(0, Math.round(detour_s / 60))`; `Math.round` is
round-half-towards-+∞, which is Mathlib's `round`. -/
def detour_min (ds : ℚ) : ℤ := max 0 (round (ds / 60))

/-- JS `a || b` on possibly-undefined strings (`displayName?.text || name`). -/
def jsOrStr (a b : Option String) : Option String := if truthyStr a then a else b

/-- Score one candidate from the provider's 3-point matrix response:
discard failed matrix calls and candidates with a non-finite leg, compute
the clamped detour, and keep the candidate iff it is within
`maxDetourMin`. -/
def scoreOne (mtxRes : Option DurMatrix) (c : RawPlace) (cpt : Pt) (maxDetourMin : ℚ) :
    Option Scored :=
  match mtxRes with
  | none => none
  | some m =>
    match mat m 0 1, mat m 1 2, mat m 0 2 with
    | some o_c, some c_d, some o_d =>
      if (detour_min (detour_s o_c c_d o_d) : ℚ) ≤ maxDetourMin then
        some ⟨c.id.getD "", jsOrStr c.displayName c.name, c.rating, c.userRatingCount, cpt,
          detour_min (detour_s o_c c_d o_d)⟩
      else none
    | _, _, _ => none

/-- The candidate point `{lat: c.location?.latitude ?? c.lat, lon:
c.location?.longitude ?? c.lon}` together with the JS truthiness guard
`if (!cpt.lat || !cpt.lon) continue` — a coordinate that is absent after
the nullish coalescing, or exactly 0, discards the candidate. -/
def cptOf (c : RawPlace) : Option Pt :=
  match c.locLat.orElse fun _ => c.rlat, c.locLng.orElse fun _ => c.rlon with
  | some la, some lo => if la = 0 ∨ lo = 0 then none else some ⟨la, lo⟩
  | _, _ => none

/-- The per-candidate loop: resolve the candidate's point, call the matrix
provider directly on `[origin, cpt, dest]`, and score. -/
def scoreCandidates (mtx : String → List Pt → Option DurMatrix) (modeU : String)
    (origin dest : Pt) (maxDetourMin : ℚ) : List RawPlace → List Scored
  | [] => []
  | c :: rest =>
    match cptOf c with
    | some cpt =>
      match scoreOne (mtx modeU [origin, cpt, dest]) c cpt maxDetourMin with
      | some s => s :: scoreCandidates mtx modeU origin dest maxDetourMin rest
      | none => scoreCandidates mtx modeU origin dest maxDetourMin rest
    | none => scoreCandidates mtx modeU origin dest maxDetourMin rest

/-- The score used to break detour ties: `rating * Math.log1p(reviews)`,
with falsy fields defaulted to 0. -/
noncomputable def sarScore (s : Scored) : ℝ :=
  ((s.rating.getD 0 : ℚ) : ℝ) * Real.log (1 + ((s.user_ratings_total.getD 0 : ℕ) : ℝ))

/-- The ordering the JS comparator
`(a.detour_min - b.detour_min) || (scoreB - scoreA)` sorts by: ascending
detour, ties broken by descending score. -/
def sarLE (a b : Scored) : Prop :=
  a.detour_min < b.detour_min ∨ (a.detour_min = b.detour_min ∧ sarScore b ≤ sarScore a)

/-- Boolean form of `sarLE` (classically decidable — the comparator
compares real-valued scores). -/
noncomputable def sarLeb (a b : Scored) : Bool :=
  @decide (sarLE a b) (Classical.propDecidable _)

/-- The `searchAlongRoute` pipeline: guard, downsample, collect candidates, score, sort
by the comparator, truncate to `maxResults`.  The places and matrix
providers are injected; the matrix provider is called directly (not
through the matrix cache). -/
noncomputable def searchAlongRoute (search : Pt → Option (List RawPlace))
    (mtx : String → List Pt → Option DurMatrix) (query : String) (maxResults : ℕ)
    (maxDetourMin : ℚ) (stops : List Pt) (mode : String) : List Scored :=
  if query == "" || stops.length < 2 then []
  else
    let pts := stops
    let sample := (sampleIdxs pts.length).map fun i => pts.getD i ⟨0, 0⟩
    let candidates := collectCands search sample [] []
    if candidates.isEmpty then []
    else
      let origin := sample.headD ⟨0, 0⟩
      let dest := (sample.getLast?).getD ⟨0, 0⟩
      let scored := scoreCandidates mtx mode.toUpper origin dest maxDetourMin candidates
      (scored.mergeSort sarLeb).take maxResults

/-- Modelled from the spec: §4.3 step 3 prescribes computing the three
detour legs "using the Matrix Cache with the 3-point set
[origin, candidate, destination]" — i.e. a cache-first lookup through
`getMatrixCache` (no explicit departure time) before calling the provider.
The source of `searchAlongRoute` instead calls the provider directly; this
definition exists to compare the two behaviours. -/
def specCacheFirstLegs (store : MatrixCache.Store DurMatrix) (now : ℚ)
    (mtx : String → List Pt → Option DurMatrix) (modeU : String)
    (origin cpt dest : Pt) : Option DurMatrix :=
  let probe := MatrixCache.getMatrixCache store now modeU.data [origin, cpt, dest] none
  match probe.hit with
  | some v => some v
  | none => mtx modeU [origin, cpt, dest]

end Sar

/-! Section: day planner (`routes/planner.js`) -/

namespace Planner

/-- A `{lat, lon}` (or `{lat, lng}`) JSON object whose fields may be
absent. -/
structure CoordSpec where
  lat : Option ℚ
  lon : Option ℚ
  lng : Option ℚ
deriving DecidableEq

/-- A places search item as read by the planner helpers. -/
structure PlaceHit where
  locLat : Option ℚ
  locLng : Option ℚ
  displayName : Option String
deriving DecidableEq

/-- Result of `resolvePlaceCenterByQueryOrCoords` (the resolved name is
omitted — the planner only threads it into response metadata). -/
inductive ResolveOut
  | ok (center : Option ℚ × Option ℚ) (source : String)
  | err (msg : String)
deriving DecidableEq

/-- Helper `resolvePlaceCenterByQueryOrCoords`: use the coordinates when both are
truthy (`if (lat && lon)`), else resolve the query through the places
search, taking the top item's location. -/
def resolvePlaceCenterByQueryOrCoords (lat lon : Option ℚ) (query : Option String)
    (search : String → Option (List PlaceHit)) : ResolveOut :=
  if truthyNum lat && truthyNum lon then .ok (lat, lon) "current"
  else if !truthyStr query then .err "No coords or query provided"
  else
    match query with
    | none => .err "No coords or query provided"
    | some q =>
      match search q with
      | none => .err "No results for query"
      | some [] => .err "No results for query"
      | some (top :: _) => .ok (top.locLat, top.locLng) "hotel"

/-- The destination defaulting of the plan-day handler:
`const D = dest?.lat ? {lat: dest.lat, lon: dest.lon ?? dest.lng} : O`. -/
def destCenter (O : Option ℚ × Option ℚ) (dest : Option CoordSpec) : Option ℚ × Option ℚ :=
  if truthyNum (dest.bind (·.lat)) then
    (dest.bind (·.lat), ((dest.bind (·.lon)).orElse fun _ => dest.bind (·.lng)))
  else O

/-- Origin and destination resolution of POST /planner/plan-day (steps 1–2
of the handler): resolve the origin from coords or query — any failure is
surfaced as a 400 `invalid_request` — then default the destination and
compute the plan mode. -/
def planResolve (origin : Option CoordSpec) (origin_query : Option String)
    (dest : Option CoordSpec) (search : String → Option (List PlaceHit)) :
    Except String ((Option ℚ × Option ℚ) × (Option ℚ × Option ℚ) × String) :=
  match resolvePlaceCenterByQueryOrCoords (origin.bind (·.lat))
      ((origin.bind (·.lon)).orElse fun _ => origin.bind (·.lng)) origin_query search with
  | .err _ => .error "invalid_request"
  | .ok O _ =>
    let D := destCenter O dest
    let planMode := if D.1 = O.1 ∧ D.2 = O.2 then "NEARBY" else "A2B"
    .ok (O, D, planMode)

/-- JS strict `<` between two durations where `none` models `Infinity`
(the initial `bestd`): a finite value is below `Infinity`, `Infinity` is
below nothing. -/
def jsLt : Option ℚ → Option ℚ → Bool
  | some x, some y => decide (x < y)
  | some _, none => true
  | none, _ => false

/-- The inner selection loop of the greedy pass: scan the unused indices in
order, strictly improving `(best, bestd)`. -/
def selectGo (d : ℕ → Option ℚ) : List ℕ → Option ℕ → Option ℚ → Option ℕ
  | [], best, _ => best
  | idx :: rest, best, bestd =>
    if jsLt (d idx) bestd then selectGo d rest (some idx) (d idx)
    else selectGo d rest best bestd

/-- Pick the unused candidate with minimum travel time from the last node
(`best = null`, `bestd = Infinity` initially). -/
def selectBest (d : ℕ → Option ℚ) (unused : List ℕ) : Option ℕ :=
  selectGo d unused none none

/-- The greedy `while (unused.size)` loop: pick the best next index, append
it and remove it from the unused set; stop when nothing is pickable.  The
fuel argument equals the size of the unused set, which decreases by one per
iteration. -/
def nnGo (dur : ℕ → ℕ → Option ℚ) : ℕ → ℕ → List ℕ → List ℕ
  | 0, _, _ => []
  | fuel + 1, last, unused =>
    match selectBest (dur last) unused with
    | none => []
    | some b => b :: nnGo dur fuel b (unused.erase b)

/-- The greedy nearest-neighbor ordering over `n` waypoints (origin at
index 0, candidates `1..n-2`, destination at `n-1`): start at 0, run the
greedy loop over the candidate indices, and push the destination index
unconditionally at the end. -/
def nnOrder (n : ℕ) (dur : ℕ → ℕ → Option ℚ) : List ℕ :=
  (0 :: nnGo dur (n - 2) 0 (List.range' 1 (n - 2))) ++ [n - 1]

end Planner

/-! Section: claims as stated

Propositional forms of the claims (or of their failing part) that turn out
not to hold of the code; each is refuted by a concrete counterexample
below, and a corrected theorem is proved instead. -/

/-- Claim C1 as stated: whenever a route computation reaches the primary
provider and the first primary attempt fails, returns a non-success code,
or yields zero routes (`osrmGood env.osrm1 = false` covers exactly these
three cases), exactly one retry is issued — i.e. two primary calls are
made. -/
def C1Stated : Prop :=
  ∀ (env : RouteApi.Env) (now : ℚ) (req : RouteApi.RouteReq) (st : RouteApi.St),
    RouteApi.reachesPrimary env req →
    RouteApi.cacheGet st.cache env.cacheTtl now
      (RouteApi.keyFor req.stops (RouteApi.buildExcludeParam req.avoid)) = none →
    st.breakerUntil ≤ now →
    RouteApi.osrmGood env.osrm1 = false →
    RouteApi.primaryCalls (RouteApi.routeHandler env now req st).2.2 = 2

/-- Claim C4 as stated: for two requests with an identical normalized
cache key inside the TTL window, where the first produced (and cached) a
payload, at most one upstream call is made in total and the second caller
observes the first caller's cached result verbatim. -/
def C4Stated : Prop :=
  ∀ (env1 env2 : RouteApi.Env) (now1 now2 : ℚ) (req1 req2 : RouteApi.RouteReq)
    (st0 : RouteApi.St) (p : RouteApi.Payload),
    RouteApi.keyFor req2.stops (RouteApi.buildExcludeParam req2.avoid) =
      RouteApi.keyFor req1.stops (RouteApi.buildExcludeParam req1.avoid) →
    now1 ≤ now2 → now2 - now1 < env1.cacheTtl → env2.cacheTtl = env1.cacheTtl →
    (RouteApi.routeHandler env1 now1 req1 st0).1 = .ok p →
    ((RouteApi.routeHandler env1 now1 req1 st0).2.2.length +
        (RouteApi.routeHandler env2 now2 req2
          (RouteApi.routeHandler env1 now1 req1 st0).2.1).2.2.length ≤ 1 ∧
      (RouteApi.routeHandler env2 now2 req2
        (RouteApi.routeHandler env1 now1 req1 st0).2.1).1 = .ok p)

/-- Claim C7's provenance part as stated: the 3-point duration matrix the
SAR detour computation uses is the one obtained via the Matrix Cache
(cache-first through `getMatrixCache`), whatever the cache contents. -/
def C7Stated : Prop :=
  ∀ (store : MatrixCache.Store Sar.DurMatrix) (now : ℚ)
    (mtx : String → List Pt → Option Sar.DurMatrix) (modeU : String) (origin cpt dest : Pt),
    mtx modeU [origin, cpt, dest] = Sar.specCacheFirstLegs store now mtx modeU origin cpt dest

/-- Claim C8's validity boundary as stated: a matrix cache probe for a key
bound to an entry inserted at time `t` hits iff `now - t < 60000`. -/
def C8Stated : Prop :=
  ∀ (store : MatrixCache.Store ℕ) (now : ℚ) (mode : Chars) (pts : List Pt)
    (iso : Option ℚ) (e : Chars × ℚ × ℕ),
    store.find? (fun x => x.1 == MatrixCache.mkey mode pts iso now) = some e →
    ((MatrixCache.getMatrixCache store now mode pts iso).hit.isSome = true ↔
      now - e.2.1 < 60000)

end Roam

/-! Section: lemmas about the decimal renderings and cache keys -/

namespace Roam

theorem digitChar_mem (n : ℕ) : digitChar n ∈ digitChars := by
  unfold digitChar
  split <;> decide

theorem natCharsGo_append (fuel : ℕ) :
    ∀ (n : ℕ) (acc : Chars), natCharsGo fuel n acc = natCharsGo fuel n [] ++ acc := by
  induction fuel with
  | zero => intro n acc; rfl
  | succ f ih =>
    intro n acc
    by_cases h : n < 10
    · simp [natCharsGo, h]
    · simp only [natCharsGo, if_neg h]
      rw [ih (n / 10) (digitChar (n % 10) :: acc), ih (n / 10) [digitChar (n % 10)]]
      simp

theorem mem_natCharsGo (fuel : ℕ) :
    ∀ (n : ℕ) (acc : Chars) (c : Char), c ∈ natCharsGo fuel n acc → c ∈ digitChars ∨ c ∈ acc := by
  induction fuel with
  | zero => intro n acc c h; exact Or.inr h
  | succ f ih =>
    intro n acc c h
    by_cases hn : n < 10
    · simp only [natCharsGo, if_pos hn, List.mem_cons] at h
      rcases h with h | h
      · exact Or.inl (h ▸ digitChar_mem n)
      · exact Or.inr h
    · simp only [natCharsGo, if_neg hn] at h
      rcases ih _ _ _ h with h | h
      · exact Or.inl h
      · rcases List.mem_cons.mp h with h | h
        · exact Or.inl (h ▸ digitChar_mem (n % 10))
        · exact Or.inr h

theorem mem_natChars {c : Char} {n : ℕ} (h : c ∈ natChars n) : c ∈ digitChars := by
  rcases mem_natCharsGo _ _ _ _ h with h | h
  · exact h
  · cases h

theorem natCharsGo_ne_nil (fuel : ℕ) :
    ∀ (n : ℕ) (acc : Chars), acc ≠ [] → natCharsGo fuel n acc ≠ [] := by
  induction fuel with
  | zero => intro n acc h; exact h
  | succ f ih =>
    intro n acc h
    by_cases hn : n < 10
    · simp [natCharsGo, hn]
    · simp only [natCharsGo, if_neg hn]
      exact ih _ _ (by simp)

theorem natChars_ne_nil (n : ℕ) : natChars n ≠ [] := by
  unfold natChars
  by_cases hn : n < 10
  · simp [natCharsGo, hn]
  · simp only [natCharsGo, if_neg hn]
    exact natCharsGo_ne_nil _ _ _ (by simp)

theorem decodeChars_singleton (c : Char) : decodeChars [c] = charVal c := by
  simp [decodeChars]

theorem decodeChars_append_singleton (xs : Chars) (c : Char) :
    decodeChars (xs ++ [c]) = 10 * decodeChars xs + charVal c := by
  simp [decodeChars, List.foldl_append]

theorem charVal_digitChar {d : ℕ} (h : d < 10) : charVal (digitChar d) = d := by
  interval_cases d <;> rfl

theorem decode_natCharsGo (fuel : ℕ) :
    ∀ n : ℕ, n < fuel → decodeChars (natCharsGo fuel n []) = n := by
  induction fuel with
  | zero => intro n h; omega
  | succ f ih =>
    intro n h
    by_cases hn : n < 10
    · simp only [natCharsGo, if_pos hn]
      rw [decodeChars_singleton, charVal_digitChar hn]
    · simp only [natCharsGo, if_neg hn]
      rw [natCharsGo_append]
      rw [decodeChars_append_singleton, charVal_digitChar (Nat.mod_lt n (by omega))]
      have hd : n / 10 < f := by
        have := Nat.div_lt_self (show 0 < n by omega) (show 1 < 10 by omega)
        omega
      rw [ih _ hd]
      omega

theorem decode_natChars (n : ℕ) : decodeChars (natChars n) = n :=
  decode_natCharsGo (n + 1) n (Nat.lt_succ_self n)

theorem natChars_injective {n m : ℕ} (h : natChars n = natChars m) : n = m := by
  have := decode_natChars n
  rw [h, decode_natChars] at this
  omega

theorem neg_not_mem_natChars (n : ℕ) : '-' ∉ natChars n := by
  intro h
  have := mem_natChars h
  revert this
  decide

theorem intChars_injective {a b : ℤ} (h : intChars a = intChars b) : a = b := by
  cases a with
  | ofNat n =>
    cases b with
    | ofNat m => simpa using natChars_injective h
    | negSucc m =>
      exfalso
      simp only [intChars] at h
      exact neg_not_mem_natChars n (h ▸ List.mem_cons_self _ _)
  | negSucc n =>
    cases b with
    | ofNat m =>
      exfalso
      simp only [intChars] at h
      exact neg_not_mem_natChars m (h ▸ List.mem_cons_self _ _)
    | negSucc m =>
      simp only [intChars, List.cons.injEq, true_and] at h
      have := natChars_injective h
      exact congrArg Int.negSucc (by omega)

theorem mem_toFixed {c : Char} {d : ℕ} {q : ℚ} (h : c ∈ toFixed d q) :
    c ∈ '-' :: '.' :: digitChars := by
  simp only [toFixed, List.mem_append, List.mem_cons] at h
  rcases h with (h | h) | h
  · rcases (by split at h <;> simp_all : c = '-') with rfl
    simp
  · simp [List.mem_cons, mem_natChars h]
  · rcases h with h | h
    · simp [h]
    · simp only [padZeros, List.mem_append, List.mem_replicate] at h
      rcases h with ⟨-, rfl⟩ | h
      · simp [digitChars]
      · simp [List.mem_cons, mem_natChars h]

theorem colon_not_mem_toFixed {d : ℕ} {q : ℚ} (h : ':' ∈ toFixed d q) : False := by
  have := mem_toFixed h
  revert this
  decide

theorem mem_joinSep {sep : Chars} {c : Char} :
    ∀ {parts : List Chars}, c ∈ joinSep sep parts → c ∈ sep ∨ ∃ x ∈ parts, c ∈ x := by
  intro parts
  induction parts with
  | nil => intro h; cases h
  | cons x rest ih =>
    cases rest with
    | nil =>
      intro h
      exact Or.inr ⟨x, by simp, h⟩
    | cons y xs =>
      intro h
      simp only [joinSep, List.mem_append] at h
      rcases h with (h | h) | h
      · exact Or.inr ⟨x, by simp, h⟩
      · exact Or.inl h
      · rcases ih h with h | ⟨z, hz, hc⟩
        · exact Or.inl h
        · exact Or.inr ⟨z, by simp [hz], hc⟩

theorem joinSep_cons_ne_nil {sep : Chars} {x : Chars} {xs : List Chars} (hx : x ≠ []) :
    joinSep sep (x :: xs) ≠ [] := by
  cases xs with
  | nil => exact hx
  | cons y ys => simp [joinSep, hx]

end Roam

namespace Roam

theorem colon_not_mem_coordParts (d : ℕ) (sep : Chars) (hsep : ':' ∉ sep) (s : List Pt) :
    ':' ∉ joinSep sep (s.map fun p => toFixed d p.lat ++ ',' :: toFixed d p.lon) := by
  intro h
  rcases mem_joinSep h with h | ⟨x, hx, hc⟩
  · exact hsep h
  · simp only [List.mem_map] at hx
    rcases hx with ⟨p, -, rfl⟩
    simp only [List.mem_append, List.mem_cons] at hc
    rcases hc with h | h | h
    · exact colon_not_mem_toFixed h
    · exact absurd h (by decide)
    · exact colon_not_mem_toFixed h

namespace RouteApi

theorem AVOID_MAP_colon_free {t : String} {w : Chars} (h : AVOID_MAP t = some w) : ':' ∉ w := by
  unfold AVOID_MAP at h
  split at h <;> cases h <;> decide

theorem dedupFirst_subset (l : List Chars) : ∀ x ∈ dedupFirst l, x ∈ l := by
  induction l using dedupFirst.induct with
  | case1 => intro x h; simp only [dedupFirst] at h; exact absurd h (List.not_mem_nil x)
  | case2 a xs ih =>
    intro x h
    rw [dedupFirst] at h
    rcases List.mem_cons.mp h with rfl | h
    · exact List.mem_cons_self _ _
    · exact List.mem_cons_of_mem _ (List.mem_of_mem_filter (ih x h))

theorem colon_not_mem_buildExcludeParam (avoid : List String) : ':' ∉ buildExcludeParam avoid := by
  intro h
  rcases mem_joinSep h with h | ⟨x, hx, hc⟩
  · exact absurd h (by decide)
  · have hx' := dedupFirst_subset _ _ hx
    simp only [List.mem_filterMap] at hx'
    rcases hx' with ⟨t, -, ht⟩
    exact AVOID_MAP_colon_free ht hc

theorem count_colon_keyFor_nil (s : List Pt) : (keyFor s []).count ':' = 1 := by
  unfold keyFor
  simp [List.count_cons, List.count_append,
    List.count_eq_zero.mpr (colon_not_mem_coordParts 5 ['-','>'] (by decide) s)]

theorem count_colon_keyFor_ex (s : List Pt) {e : Chars} (he : e ≠ []) (hc : ':' ∉ e) :
    (keyFor s e).count ':' = 2 := by
  unfold keyFor
  rw [if_neg (by simpa using he)]
  simp [List.count_cons, List.count_append,
    List.count_eq_zero.mpr (colon_not_mem_coordParts 5 ['-','>'] (by decide) s),
    List.count_eq_zero.mpr hc]

theorem keyFor_nil_ne (s s' : List Pt) {e : Chars} (he : e ≠ []) (hc : ':' ∉ e) :
    keyFor s [] ≠ keyFor s' e := by
  intro h
  have h1 := count_colon_keyFor_nil s
  rw [h, count_colon_keyFor_ex s' he hc] at h1
  omega

theorem buildExcludeParam_nil : buildExcludeParam [] = [] := by
  simp [buildExcludeParam, dedupFirst, joinSep]

theorem avoid_ne_of_exclude_ne {avoid : List String} (h : buildExcludeParam avoid ≠ []) :
    avoid ≠ [] := by
  intro ha
  exact h (ha ▸ buildExcludeParam_nil)

theorem exclude_ne_of_allowed {avoid : List String} (hne : avoid ≠ [])
    (hall : ∀ a ∈ avoid, a ∈ (["tolls", "ferries", "highways"] : List String)) :
    buildExcludeParam avoid ≠ [] := by
  cases avoid with
  | nil => exact absurd rfl hne
  | cons a rest =>
    have ha := hall a (by simp)
    have hmap : ∃ w, AVOID_MAP a = some w ∧ w ≠ [] := by
      simp only [List.mem_cons, List.mem_singleton, List.not_mem_nil, or_false] at ha
      rcases ha with rfl | rfl | rfl
      · exact ⟨_, rfl, by decide⟩
      · exact ⟨_, rfl, by decide⟩
      · exact ⟨_, rfl, by decide⟩
    rcases hmap with ⟨w, hw, hwne⟩
    unfold buildExcludeParam
    simp only [List.filterMap_cons, hw]
    rw [dedupFirst]
    exact joinSep_cons_ne_nil hwne

theorem exclude_isEmpty_eq {avoid : List String}
    (hall : ∀ a ∈ avoid, a ∈ (["tolls", "ferries", "highways"] : List String)) :
    (buildExcludeParam avoid).isEmpty = avoid.isEmpty := by
  cases avoid with
  | nil => rw [buildExcludeParam_nil]; rfl
  | cons a rest =>
    have := exclude_ne_of_allowed (by simp) hall
    simp only [List.isEmpty_cons]
    cases hx : buildExcludeParam (a :: rest) with
    | nil => exact absurd hx this
    | cons _ _ => rfl

end RouteApi

namespace MatrixCache

theorem mkey_inj_bucket {mode : Chars} {pts : List Pt} {iso1 iso2 : Option ℚ} {now1 now2 : ℚ}
    (h : mkey mode pts iso1 now1 = mkey mode pts iso2 now2) :
    timeBucket iso1 now1 = timeBucket iso2 now2 := by
  unfold mkey at h
  have h1 := List.append_cancel_left h
  have h2 := List.tail_eq_of_cons_eq h1
  exact intChars_injective h2

theorem mkey_ne_of_bucket_ne {mode : Chars} {pts : List Pt} {iso1 iso2 : Option ℚ}
    {now1 now2 : ℚ} (h : timeBucket iso1 now1 ≠ timeBucket iso2 now2) :
    mkey mode pts iso1 now1 ≠ mkey mode pts iso2 now2 :=
  fun he => h (mkey_inj_bucket he)

end MatrixCache

end Roam

/-! Section: lemmas about the greedy nearest-neighbor pass -/

namespace Roam.Planner

theorem jsLt_irrefl (x : Option ℚ) : jsLt x x = false := by
  cases x with
  | none => rfl
  | some q => simp [jsLt]

theorem jsLt_trans {a b c : Option ℚ} (h1 : jsLt a b = true) (h2 : jsLt b c = true) :
    jsLt a c = true := by
  cases a with
  | none => simp [jsLt] at h1
  | some x =>
    cases b with
    | none => simp [jsLt] at h2
    | some y =>
      cases c with
      | none => rfl
      | some z =>
        simp only [jsLt, decide_eq_true_eq] at h1 h2 ⊢
        exact lt_trans h1 h2

theorem jsLt_asymm {a b : Option ℚ} (h : jsLt a b = true) : jsLt b a = false := by
  cases a with
  | none => simp [jsLt] at h
  | some x =>
    cases b with
    | none => rfl
    | some y =>
      simp only [jsLt, decide_eq_true_eq, decide_eq_false_iff_not] at h ⊢
      exact not_lt_of_lt h

theorem selectGo_isSome (d : ℕ → Option ℚ) :
    ∀ (l : List ℕ) (i : ℕ) (d0 : Option ℚ), (selectGo d l (some i) d0).isSome = true := by
  intro l
  induction l with
  | nil => intro i d0; rfl
  | cons idx rest ih =>
    intro i d0
    by_cases hlt : jsLt (d idx) d0 = true
    · simp only [selectGo, if_pos hlt]; exact ih _ _
    · simp only [selectGo, if_neg hlt]; exact ih _ _

theorem selectGo_strict (d : ℕ → Option ℚ) :
    ∀ (l : List ℕ) (b0 : Option ℕ) (d0 : Option ℚ) (b : ℕ),
      selectGo d l b0 d0 = some b →
      b0 = some b ∨ (b ∈ l ∧ jsLt (d b) d0 = true) := by
  intro l
  induction l with
  | nil => intro b0 d0 b h; exact Or.inl h
  | cons idx rest ih =>
    intro b0 d0 b h
    by_cases hlt : jsLt (d idx) d0 = true
    · simp only [selectGo, if_pos hlt] at h
      rcases ih _ _ _ h with h1 | ⟨hm, himp⟩
      · obtain rfl : idx = b := by injection h1
        exact Or.inr ⟨List.mem_cons_self _ _, hlt⟩
      · exact Or.inr ⟨List.mem_cons_of_mem _ hm, jsLt_trans himp hlt⟩
    · simp only [selectGo, if_neg hlt] at h
      rcases ih _ _ _ h with h1 | ⟨hm, himp⟩
      · exact Or.inl h1
      · exact Or.inr ⟨List.mem_cons_of_mem _ hm, himp⟩

theorem selectGo_min (d : ℕ → Option ℚ) :
    ∀ (l : List ℕ) (b0 : Option ℕ) (d0 : Option ℚ) (b : ℕ),
      (∀ x, b0 = some x → d0 = d x) → (b0 = none → d0 = none) →
      selectGo d l b0 d0 = some b →
      ∀ j ∈ l, jsLt (d j) (d b) = false := by
  intro l
  induction l with
  | nil => intro b0 d0 b _ _ _ j hj; cases hj
  | cons idx rest ih =>
    intro b0 d0 b hlink hnone h j hj
    by_cases hlt : jsLt (d idx) d0 = true
    · simp only [selectGo, if_pos hlt] at h
      rcases List.mem_cons.mp hj with rfl | hj'
      · rcases selectGo_strict d rest _ _ _ h with h1 | ⟨-, himp⟩
        · rw [Option.some.inj h1]
          exact jsLt_irrefl _
        · exact jsLt_asymm himp
      · exact ih _ _ _ (fun x hx => by injection hx with hx; rw [← hx]) (by simp) h j hj'
    · have hlt' : jsLt (d idx) d0 = false := Bool.eq_false_iff.mpr hlt
      simp only [selectGo, if_neg hlt] at h
      rcases List.mem_cons.mp hj with rfl | hj'
      · rcases selectGo_strict d rest _ _ _ h with h1 | ⟨-, himp⟩
        · have hd0 := hlink b h1
          rw [hd0] at hlt'
          exact hlt'
        · cases hc : jsLt (d j) (d b) with
          | false => rfl
          | true =>
            exfalso
            have := jsLt_trans hc himp
            rw [hlt'] at this
            cases this
      · exact ih _ _ _ hlink hnone h j hj'

theorem selectGo_tie (d : ℕ → Option ℚ) :
    ∀ (l : List ℕ) (b0 : Option ℕ) (d0 : Option ℚ) (b : ℕ),
      l.Pairwise (· < ·) →
      (∀ x, b0 = some x → d0 = d x ∧ ∀ j ∈ l, x < j) → (b0 = none → d0 = none) →
      selectGo d l b0 d0 = some b →
      ∀ j ∈ l, d j = d b → b ≤ j := by
  intro l
  induction l with
  | nil => intro b0 d0 b _ _ _ _ j hj; cases hj
  | cons idx rest ih =>
    intro b0 d0 b hp hlink hnone h j hj heq
    rw [List.pairwise_cons] at hp
    by_cases hlt : jsLt (d idx) d0 = true
    · simp only [selectGo, if_pos hlt] at h
      rcases List.mem_cons.mp hj with rfl | hj'
      · rcases selectGo_strict d rest _ _ _ h with h1 | ⟨-, himp⟩
        · rw [Option.some.inj h1]
        · rw [heq] at himp
          rw [jsLt_irrefl] at himp
          cases himp
      · exact ih _ _ _ hp.2
          (fun x hx => by
            injection hx with hx
            exact ⟨by rw [← hx], fun j' hj'' => by rw [← hx]; exact hp.1 j' hj''⟩)
          (by simp) h j hj' heq
    · have hlt' : jsLt (d idx) d0 = false := Bool.eq_false_iff.mpr hlt
      simp only [selectGo, if_neg hlt] at h
      rcases List.mem_cons.mp hj with rfl | hj'
      · rcases selectGo_strict d rest _ _ _ h with h1 | ⟨-, himp⟩
        · rcases hlink b h1 with ⟨-, hall⟩
          exact le_of_lt (hall j (List.mem_cons_self _ _))
        · exfalso
          rw [heq] at hlt'
          rw [himp] at hlt'
          cases hlt'
      · exact ih _ _ _ hp.2
          (fun x hx => by
            rcases hlink x hx with ⟨h1, h2⟩
            exact ⟨h1, fun j' hj'' => h2 j' (List.mem_cons_of_mem _ hj'')⟩)
          hnone h j hj' heq

theorem selectBest_mem {d : ℕ → Option ℚ} {l : List ℕ} {b : ℕ}
    (h : selectBest d l = some b) : b ∈ l := by
  rcases selectGo_strict d l none none b h with h1 | ⟨hm, -⟩
  · cases h1
  · exact hm

theorem selectBest_isSome {d : ℕ → Option ℚ} {l : List ℕ} (hne : l ≠ [])
    (hfin : ∀ j ∈ l, (d j).isSome = true) : (selectBest d l).isSome = true := by
  cases l with
  | nil => exact absurd rfl hne
  | cons idx rest =>
    have hidx := hfin idx (List.mem_cons_self _ _)
    have hlt : jsLt (d idx) none = true := by
      cases hd : d idx with
      | none => rw [hd] at hidx; cases hidx
      | some q => rfl
    unfold selectBest
    simp only [selectGo, if_pos hlt]
    exact selectGo_isSome d rest idx (d idx)

theorem nnGo_perm (dur : ℕ → ℕ → Option ℚ) (hfin : ∀ i j, (dur i j).isSome = true) :
    ∀ (fuel : ℕ) (u : List ℕ) (last : ℕ), fuel = u.length →
      (nnGo dur fuel last u).Perm u := by
  intro fuel
  induction fuel with
  | zero =>
    intro u last hlen
    rw [List.eq_nil_of_length_eq_zero hlen.symm]
    rfl
  | succ f ih =>
    intro u last hlen
    have hne : u ≠ [] := by
      intro h
      rw [h] at hlen
      simp at hlen
    have hsome := selectBest_isSome hne (fun j _ => hfin last j)
    cases hB : selectBest (dur last) u with
    | none => rw [hB] at hsome; cases hsome
    | some b =>
      have hmem := selectBest_mem hB
      simp only [nnGo, hB]
      have hlen' : f = (u.erase b).length := by
        rw [List.length_erase_of_mem hmem]
        omega
      exact ((ih (u.erase b) b hlen').cons b).trans (List.perm_cons_erase hmem).symm

end Roam.Planner

namespace Roam.Planner

theorem range'_concat_one : ∀ (s n : ℕ), List.range' s (n + 1) = List.range' s n ++ [s + n] := by
  intro s n
  induction n generalizing s with
  | zero => rfl
  | succ k ih =>
    have h1 : List.range' s (k + 1 + 1) = s :: List.range' (s + 1) (k + 1) := rfl
    have h2 : List.range' s (k + 1) = s :: List.range' (s + 1) k := rfl
    rw [h1, ih (s + 1), h2]
    have h3 : s + 1 + k = s + (k + 1) := by omega
    rw [h3, List.cons_append]

theorem nnOrder_head (n : ℕ) (dur : ℕ → ℕ → Option ℚ) :
    (nnOrder n dur).head? = some 0 := by
  simp [nnOrder]

theorem nnOrder_getLast (n : ℕ) (dur : ℕ → ℕ → Option ℚ) :
    (nnOrder n dur).getLast? = some (n - 1) := by
  unfold nnOrder
  exact List.getLast?_concat _

theorem nnOrder_perm (n : ℕ) (dur : ℕ → ℕ → Option ℚ) (hn : 2 ≤ n)
    (hfin : ∀ i j, (dur i j).isSome = true) :
    (nnOrder n dur).Perm (List.range n) := by
  obtain ⟨m, rfl⟩ : ∃ m, n = m + 2 := ⟨n - 2, by omega⟩
  have hg : (nnGo dur (m + 2 - 2) 0 (List.range' 1 (m + 2 - 2))).Perm (List.range' 1 m) := by
    have := nnGo_perm dur hfin m (List.range' 1 m) 0 (by simp)
    simpa using this
  have hperm : (nnOrder (m + 2) dur).Perm ((0 :: List.range' 1 m) ++ [m + 1]) := by
    unfold nnOrder
    refine List.Perm.append ?_ (List.Perm.refl _)
    exact (hg.cons 0)
  refine hperm.trans (List.Perm.of_eq ?_)
  have h1 : List.range (m + 2) = List.range' 0 (m + 2) := List.range_eq_range' _
  have h2 : List.range' 0 (m + 2) = 0 :: List.range' 1 (m + 1) := rfl
  have h3 : List.range' 1 (m + 1) = List.range' 1 m ++ [1 + m] := range'_concat_one 1 m
  rw [h1, h2, h3]
  have h4 : 1 + m = m + 1 := by omega
  rw [h4, List.cons_append]

end Roam.Planner

/-! Section: lemmas about searchAlongRoute -/

namespace Roam.Sar

theorem scoreOne_place_id {m : Option DurMatrix} {c : RawPlace} {cpt : Pt} {mdm : ℚ}
    {s : Scored} (h : scoreOne m c cpt mdm = some s) : s.place_id = c.id.getD "" := by
  unfold scoreOne at h
  split at h
  · cases h
  · split at h
    · split at h
      · injection h with h
        subst h
        rfl
      · cases h
    · cases h

theorem scoreOne_detour_le {m : Option DurMatrix} {c : RawPlace} {cpt : Pt} {mdm : ℚ}
    {s : Scored} (h : scoreOne m c cpt mdm = some s) : (s.detour_min : ℚ) ≤ mdm := by
  unfold scoreOne at h
  split at h
  · cases h
  · split at h
    · split at h
      · rename_i hle
        injection h with h
        subst h
        exact hle
      · cases h
    · cases h

theorem scoreCandidates_cons_none {mtx : String → List Pt → Option DurMatrix} {modeU : String}
    {o dst : Pt} {mdm : ℚ} {c : RawPlace} {rest : List RawPlace} (hc : cptOf c = none) :
    scoreCandidates mtx modeU o dst mdm (c :: rest) = scoreCandidates mtx modeU o dst mdm rest := by
  simp only [scoreCandidates, hc]

theorem scoreCandidates_cons_skip {mtx : String → List Pt → Option DurMatrix} {modeU : String}
    {o dst : Pt} {mdm : ℚ} {c : RawPlace} {rest : List RawPlace} {cpt : Pt}
    (hc : cptOf c = some cpt) (hs : scoreOne (mtx modeU [o, cpt, dst]) c cpt mdm = none) :
    scoreCandidates mtx modeU o dst mdm (c :: rest) = scoreCandidates mtx modeU o dst mdm rest := by
  simp only [scoreCandidates, hc, hs]

theorem scoreCandidates_cons_keep {mtx : String → List Pt → Option DurMatrix} {modeU : String}
    {o dst : Pt} {mdm : ℚ} {c : RawPlace} {rest : List RawPlace} {cpt : Pt} {s : Scored}
    (hc : cptOf c = some cpt) (hs : scoreOne (mtx modeU [o, cpt, dst]) c cpt mdm = some s) :
    scoreCandidates mtx modeU o dst mdm (c :: rest) =
      s :: scoreCandidates mtx modeU o dst mdm rest := by
  simp only [scoreCandidates, hc, hs]

theorem scoreCandidates_pid_sublist (mtx : String → List Pt → Option DurMatrix) (modeU : String)
    (o dst : Pt) (mdm : ℚ) (cands : List RawPlace) :
    List.Sublist ((scoreCandidates mtx modeU o dst mdm cands).map (·.place_id))
      (cands.map fun r => r.id.getD "") := by
  induction cands with
  | nil => simp [scoreCandidates]
  | cons c rest ih =>
    cases hc : cptOf c with
    | none =>
      rw [scoreCandidates_cons_none hc, List.map_cons]
      exact ih.cons _
    | some cpt =>
      cases hs : scoreOne (mtx modeU [o, cpt, dst]) c cpt mdm with
      | none =>
        rw [scoreCandidates_cons_skip hc hs, List.map_cons]
        exact ih.cons _
      | some s =>
        rw [scoreCandidates_cons_keep hc hs, List.map_cons, List.map_cons]
        rw [scoreOne_place_id hs]
        exact ih.cons₂ _

theorem scoreCandidates_detour_le (mtx : String → List Pt → Option DurMatrix) (modeU : String)
    (o dst : Pt) (mdm : ℚ) (cands : List RawPlace) :
    ∀ s ∈ scoreCandidates mtx modeU o dst mdm cands, (s.detour_min : ℚ) ≤ mdm := by
  induction cands with
  | nil => intro s h; simp [scoreCandidates] at h
  | cons c rest ih =>
    intro s h
    cases hc : cptOf c with
    | none =>
      rw [scoreCandidates_cons_none hc] at h
      exact ih s h
    | some cpt =>
      cases hs : scoreOne (mtx modeU [o, cpt, dst]) c cpt mdm with
      | none =>
        rw [scoreCandidates_cons_skip hc hs] at h
        exact ih s h
      | some s' =>
        rw [scoreCandidates_cons_keep hc hs] at h
        rcases List.mem_cons.mp h with rfl | h'
        · exact scoreOne_detour_le hs
        · exact ih s h'

theorem collectStep_inv (items : List RawPlace) :
    ∀ (seen : List String) (acc : List RawPlace),
      ((acc.map fun r => r.id.getD "").Nodup ∧
        ∀ r ∈ acc, ∃ i, r.id = some i ∧ seen.contains i = true) →
      (((collectStep items (seen, acc)).2.map fun r => r.id.getD "").Nodup ∧
        ∀ r ∈ (collectStep items (seen, acc)).2,
          ∃ i, r.id = some i ∧ (collectStep items (seen, acc)).1.contains i = true) := by
  induction items with
  | nil => intro seen acc h; exact h
  | cons r rest ih =>
    intro seen acc h
    have hstep : collectStep (r :: rest) (seen, acc) =
        collectStep rest
          (match r.id with
           | none => (seen, acc)
           | some i => if i == "" || seen.contains i then (seen, acc)
               else (i :: seen, acc ++ [r])) := by
      simp only [collectStep, List.foldl_cons]
    rw [hstep]
    cases hid : r.id with
    | none => exact ih seen acc h
    | some i =>
      by_cases hskip : (i == "" || seen.contains i) = true
      · simp only [hskip, if_pos]
        exact ih seen acc h
      · simp only [hskip]
        rw [if_neg (by simp [hskip])]
        apply ih
        rcases h with ⟨hnd, hmem⟩
        have hcontains : seen.contains i = false := by
          rcases Bool.or_eq_false_iff.mp (Bool.eq_false_iff.mpr hskip) with ⟨-, hc⟩
          exact hc
        constructor
        · have hperm : ((acc ++ [r]).map fun x => x.id.getD "").Perm
              ((r :: acc).map fun x => x.id.getD "") :=
            (List.perm_append_singleton r acc).map _
          rw [hperm.nodup_iff]
          simp only [List.map_cons, List.nodup_cons]
          refine ⟨?_, hnd⟩
          rw [hid]
          simp only [Option.getD_some]
          intro hin
          rcases List.mem_map.mp hin with ⟨r', hr', hpid⟩
          rcases hmem r' hr' with ⟨i', hi', hc'⟩
          rw [hi'] at hpid
          simp only [Option.getD_some] at hpid
          rw [hpid] at hc'
          rw [hcontains] at hc'
          cases hc'
        · intro r' hr'
          rcases List.mem_append.mp hr' with hr' | hr'
          · rcases hmem r' hr' with ⟨i', hi', hc'⟩
            refine ⟨i', hi', ?_⟩
            have : i' ∈ i :: seen := List.mem_cons_of_mem _ (List.elem_iff.mp hc')
            exact List.elem_iff.mpr this
          · rcases List.mem_singleton.mp hr' with rfl
            exact ⟨i, hid, List.elem_iff.mpr (List.mem_cons_self _ _)⟩

end Roam.Sar

namespace Roam.Sar

theorem collectCands_nodup (search : Pt → Option (List RawPlace)) :
    ∀ (sample : List Pt) (seen : List String) (acc : List RawPlace),
      ((acc.map fun r => r.id.getD "").Nodup ∧
        ∀ r ∈ acc, ∃ i, r.id = some i ∧ seen.contains i = true) →
      ((collectCands search sample seen acc).map fun r => r.id.getD "").Nodup := by
  intro sample
  induction sample with
  | nil => intro seen acc h; exact h.1
  | cons p rest ih =>
    intro seen acc h
    cases hsp : search p with
    | none =>
      simp only [collectCands, hsp]
      exact ih seen acc h
    | some items =>
      simp only [collectCands, hsp]
      have hinv := collectStep_inv items seen acc h
      by_cases hlen : (collectStep items (seen, acc)).2.length > 50
      · rw [if_pos hlen]
        exact hinv.1
      · rw [if_neg hlen]
        exact ih _ _ hinv

theorem sarLeb_iff (a b : Scored) : sarLeb a b = true ↔ sarLE a b := by
  unfold sarLeb
  simp only [decide_eq_true_eq]

theorem sarLeb_trans (a b c : Scored) (h1 : sarLeb a b) (h2 : sarLeb b c) : sarLeb a c := by
  rw [sarLeb_iff] at *
  rcases h1 with h1 | ⟨he1, hs1⟩
  · rcases h2 with h2 | ⟨he2, hs2⟩
    · exact Or.inl (lt_trans h1 h2)
    · exact Or.inl (he2 ▸ h1)
  · rcases h2 with h2 | ⟨he2, hs2⟩
    · exact Or.inl (he1 ▸ h2)
    · exact Or.inr ⟨he1.trans he2, le_trans hs2 hs1⟩

theorem sarLeb_total (a b : Scored) : sarLeb a b || sarLeb b a := by
  rcases lt_trichotomy a.detour_min b.detour_min with h | h | h
  · simp [sarLeb_iff, sarLE, h]
  · rcases le_total (sarScore b) (sarScore a) with hs | hs
    · have : sarLeb a b = true := (sarLeb_iff _ _).mpr (Or.inr ⟨h, hs⟩)
      simp [this]
    · have : sarLeb b a = true := (sarLeb_iff _ _).mpr (Or.inr ⟨h.symm, hs⟩)
      simp [this]
  · have : sarLeb b a = true := (sarLeb_iff _ _).mpr (Or.inl h)
    simp [this]

theorem mergeSort_sarLE_pairwise (l : List Scored) :
    (l.mergeSort sarLeb).Pairwise sarLE := by
  have h := List.sorted_mergeSort (fun a b c => sarLeb_trans a b c)
    (fun a b => sarLeb_total a b) l
  exact h.imp fun hab => (sarLeb_iff _ _).mp hab

end Roam.Sar

/-! Section: lemmas about the route orchestrator -/

namespace Roam.RouteApi

theorem orsPhase_none_of_reaches (env : Env) (req : RouteReq) (h : reachesPrimary env req) :
    (orsPhase env req).1 = none := by
  unfold orsPhase
  rcases h with h | h | h
  · rw [h]; rfl
  · rw [h]
    simp only [Bool.and_false, Bool.false_eq_true, if_neg]
    rfl
  · by_cases hc : (!req.avoid.isEmpty && env.orsConfigured) = true
    · rw [if_pos hc, h]
    · rw [if_neg hc]

theorem orsPhase_trace (env : Env) (req : RouteReq) :
    (orsPhase env req).2 = [] ∨ (orsPhase env req).2 = [UpCall.ors] := by
  unfold orsPhase
  by_cases hc : (!req.avoid.isEmpty && env.orsConfigured) = true
  · rw [if_pos hc]
    cases env.ors <;> simp
  · rw [if_neg hc]
    left
    rfl

theorem orsPhase_relaxed (env : Env) (req : RouteReq) (p : Payload)
    (h : (orsPhase env req).1 = some p) : p.route_retry_relaxed = false := by
  unfold orsPhase at h
  by_cases hc : (!req.avoid.isEmpty && env.orsConfigured) = true
  · rw [if_pos hc] at h
    cases hors : env.ors with
    | okRoute d t g =>
      rw [hors] at h
      simp only [Option.some.injEq] at h
      rw [← h]
    | fail => rw [hors] at h; cases h
  · rw [if_neg hc] at h
    cases h

theorem osrmPhase_retry_ok (env : Env) (ex : Chars) (h1 : osrmOkCode env.osrm1 = false)
    (h2 : osrmGood env.osrm2 = true) :
    osrmPhase env ex = (env.osrm2, !ex.isEmpty, [.osrm ex, .osrm []]) := by
  simp [osrmPhase, h1, h2]

theorem osrmPhase_retry_fail (env : Env) (ex : Chars) (h1 : osrmOkCode env.osrm1 = false)
    (h2 : osrmGood env.osrm2 = false) :
    osrmPhase env ex = (env.osrm1, false, [.osrm ex, .osrm []]) := by
  simp [osrmPhase, h1, h2]

theorem osrmPhase_first_ok (env : Env) (ex : Chars) (h1 : osrmOkCode env.osrm1 = true) :
    osrmPhase env ex = (env.osrm1, false, [.osrm ex]) := by
  simp [osrmPhase, h1]

theorem osrmPhase_cases (env : Env) (ex : Chars) :
    osrmPhase env ex = (env.osrm1, false, [.osrm ex]) ∨
    osrmPhase env ex = (env.osrm2, !ex.isEmpty, [.osrm ex, .osrm []]) ∨
    osrmPhase env ex = (env.osrm1, false, [.osrm ex, .osrm []]) := by
  cases h1 : osrmOkCode env.osrm1 with
  | true => exact Or.inl (osrmPhase_first_ok env ex h1)
  | false =>
    cases h2 : osrmGood env.osrm2 with
    | true => exact Or.inr (Or.inl (osrmPhase_retry_ok env ex h1 h2))
    | false => exact Or.inr (Or.inr (osrmPhase_retry_fail env ex h1 h2))

theorem osrmPhase_fst_of_fail (env : Env) (ex : Chars)
    (h : osrmGood (osrmPhase env ex).1 = false) : (osrmPhase env ex).1 = env.osrm1 := by
  cases h1 : osrmOkCode env.osrm1 with
  | true => rw [osrmPhase_first_ok env ex h1]
  | false =>
    cases h2 : osrmGood env.osrm2 with
    | true =>
      rw [osrmPhase_retry_ok env ex h1 h2] at h
      rw [h2] at h
      cases h
    | false => rw [osrmPhase_retry_fail env ex h1 h2]

theorem osrmPhase_relaxed_true (env : Env) (ex : Chars)
    (h : (osrmPhase env ex).2.1 = true) : ex ≠ [] := by
  rcases osrmPhase_cases env ex with hc | hc | hc <;> rw [hc] at h
  · cases h
  · intro he
    subst he
    simp at h
  · cases h

theorem osrmGood_shape {r : OsrmResult} (h : osrmGood r = true) :
    ∃ j rt rest, r = .okJson j ∧ j.code = "Ok" ∧ j.routes = rt :: rest := by
  cases r with
  | okJson j =>
    simp only [osrmGood, Bool.and_eq_true, beq_iff_eq, Bool.not_eq_true'] at h
    rcases h with ⟨hcode, hne⟩
    cases hr : j.routes with
    | nil => rw [hr] at hne; cases hne
    | cons rt rest => exact ⟨j, rt, rest, rfl, hcode, hr⟩
  | httpErr s b => cases h
  | netErr e => cases h

end Roam.RouteApi

namespace Roam.RouteApi

theorem routeHandler_cache_hit {env : Env} {now : ℚ} {req : RouteReq} {st : St} {p : Payload}
    (h : cacheGet st.cache env.cacheTtl now
      (keyFor req.stops (buildExcludeParam req.avoid)) = some p) :
    routeHandler env now req st = (.ok p, st, []) := by
  unfold routeHandler
  simp only [h]

theorem routeHandler_breaker_open {env : Env} {now : ℚ} {req : RouteReq} {st : St}
    (hmiss : cacheGet st.cache env.cacheTtl now
      (keyFor req.stops (buildExcludeParam req.avoid)) = none)
    (h : now < st.breakerUntil) :
    routeHandler env now req st = (.err 503 "provider_unavailable", st, []) := by
  unfold routeHandler
  simp only [hmiss]
  rw [if_pos h]

theorem routeHandler_ors_ok {env : Env} {now : ℚ} {req : RouteReq} {st : St} {p : Payload}
    (hmiss : cacheGet st.cache env.cacheTtl now
      (keyFor req.stops (buildExcludeParam req.avoid)) = none)
    (hbrk : ¬ now < st.breakerUntil)
    (hp : (orsPhase env req).1 = some p) :
    routeHandler env now req st =
      (.ok p,
        ⟨cacheSet st.cache (keyFor req.stops (buildExcludeParam req.avoid)) now p,
          st.breakerUntil⟩,
        (orsPhase env req).2) := by
  have hors : orsPhase env req = (some p, (orsPhase env req).2) := by
    rw [← hp]
  unfold routeHandler
  simp only [hmiss]
  rw [if_neg hbrk, hors]

theorem routeHandler_osrm_fail {env : Env} {now : ℚ} {req : RouteReq} {st : St}
    (hmiss : cacheGet st.cache env.cacheTtl now
      (keyFor req.stops (buildExcludeParam req.avoid)) = none)
    (hbrk : ¬ now < st.breakerUntil)
    (hors : (orsPhase env req).1 = none)
    (hbad : osrmGood (osrmPhase env (buildExcludeParam req.avoid)).1 = false) :
    routeHandler env now req st =
      (.err 502 (classifyCode (osrmPhase env (buildExcludeParam req.avoid)).1),
        ⟨st.cache,
          openBreaker (osrmPhase env (buildExcludeParam req.avoid)).1 now st.breakerUntil⟩,
        (orsPhase env req).2 ++ (osrmPhase env (buildExcludeParam req.avoid)).2.2) := by
  have horse : orsPhase env req = (none, (orsPhase env req).2) := by
    rw [← hors]
  have hphase : osrmPhase env (buildExcludeParam req.avoid) =
      ((osrmPhase env (buildExcludeParam req.avoid)).1,
        (osrmPhase env (buildExcludeParam req.avoid)).2.1,
        (osrmPhase env (buildExcludeParam req.avoid)).2.2) := rfl
  unfold routeHandler
  simp only [hmiss]
  rw [if_neg hbrk, horse, hphase]
  simp only [hbad]
  rfl

theorem routeHandler_osrm_ok {env : Env} {now : ℚ} {req : RouteReq} {st : St}
    {j : OsrmJson} {rt : OsrmRoute} {rest' : List OsrmRoute}
    (hmiss : cacheGet st.cache env.cacheTtl now
      (keyFor req.stops (buildExcludeParam req.avoid)) = none)
    (hbrk : ¬ now < st.breakerUntil)
    (hors : (orsPhase env req).1 = none)
    (hgood : osrmGood (osrmPhase env (buildExcludeParam req.avoid)).1 = true)
    (hj : (osrmPhase env (buildExcludeParam req.avoid)).1 = .okJson j)
    (hr : j.routes = rt :: rest') :
    routeHandler env now req st =
      (.ok (osrmPayload rt (osrmPhase env (buildExcludeParam req.avoid)).2.1),
        ⟨cacheSet st.cache (keyFor req.stops (buildExcludeParam req.avoid)) now
            (osrmPayload rt (osrmPhase env (buildExcludeParam req.avoid)).2.1),
          st.breakerUntil⟩,
        (orsPhase env req).2 ++ (osrmPhase env (buildExcludeParam req.avoid)).2.2) := by
  have horse : orsPhase env req = (none, (orsPhase env req).2) := by
    rw [← hors]
  have hphase : osrmPhase env (buildExcludeParam req.avoid) =
      ((osrmPhase env (buildExcludeParam req.avoid)).1,
        (osrmPhase env (buildExcludeParam req.avoid)).2.1,
        (osrmPhase env (buildExcludeParam req.avoid)).2.2) := rfl
  unfold routeHandler
  simp only [hmiss]
  rw [if_neg hbrk, horse, hphase]
  rw [hj] at hgood
  simp only [hj, hr, hgood]
  rfl

end Roam.RouteApi

namespace Roam.RouteApi

theorem routeHandler_total (env : Env) (now : ℚ) (req : RouteReq) (st : St) :
    (∃ p, cacheGet st.cache env.cacheTtl now
        (keyFor req.stops (buildExcludeParam req.avoid)) = some p ∧
      routeHandler env now req st = (.ok p, st, [])) ∨
    (cacheGet st.cache env.cacheTtl now
        (keyFor req.stops (buildExcludeParam req.avoid)) = none ∧
      now < st.breakerUntil ∧
      routeHandler env now req st = (.err 503 "provider_unavailable", st, [])) ∨
    (cacheGet st.cache env.cacheTtl now
        (keyFor req.stops (buildExcludeParam req.avoid)) = none ∧
      ¬ now < st.breakerUntil ∧
      ∃ p, (orsPhase env req).1 = some p ∧
        routeHandler env now req st =
          (.ok p,
            ⟨cacheSet st.cache (keyFor req.stops (buildExcludeParam req.avoid)) now p,
              st.breakerUntil⟩,
            (orsPhase env req).2)) ∨
    (cacheGet st.cache env.cacheTtl now
        (keyFor req.stops (buildExcludeParam req.avoid)) = none ∧
      ¬ now < st.breakerUntil ∧
      (orsPhase env req).1 = none ∧
      osrmGood (osrmPhase env (buildExcludeParam req.avoid)).1 = false ∧
      routeHandler env now req st =
        (.err 502 (classifyCode (osrmPhase env (buildExcludeParam req.avoid)).1),
          ⟨st.cache,
            openBreaker (osrmPhase env (buildExcludeParam req.avoid)).1 now st.breakerUntil⟩,
          (orsPhase env req).2 ++ (osrmPhase env (buildExcludeParam req.avoid)).2.2)) ∨
    (cacheGet st.cache env.cacheTtl now
        (keyFor req.stops (buildExcludeParam req.avoid)) = none ∧
      ¬ now < st.breakerUntil ∧
      (orsPhase env req).1 = none ∧
      osrmGood (osrmPhase env (buildExcludeParam req.avoid)).1 = true ∧
      ∃ j rt rest', (osrmPhase env (buildExcludeParam req.avoid)).1 = .okJson j ∧
        j.routes = rt :: rest' ∧
        routeHandler env now req st =
          (.ok (osrmPayload rt (osrmPhase env (buildExcludeParam req.avoid)).2.1),
            ⟨cacheSet st.cache (keyFor req.stops (buildExcludeParam req.avoid)) now
                (osrmPayload rt (osrmPhase env (buildExcludeParam req.avoid)).2.1),
              st.breakerUntil⟩,
            (orsPhase env req).2 ++ (osrmPhase env (buildExcludeParam req.avoid)).2.2)) := by
  cases hmiss : cacheGet st.cache env.cacheTtl now
      (keyFor req.stops (buildExcludeParam req.avoid)) with
  | some p => exact Or.inl ⟨p, rfl, routeHandler_cache_hit hmiss⟩
  | none =>
    by_cases hbrk : now < st.breakerUntil
    · exact Or.inr (Or.inl ⟨rfl, hbrk, routeHandler_breaker_open hmiss hbrk⟩)
    · cases hors : (orsPhase env req).1 with
      | some p =>
        exact Or.inr (Or.inr (Or.inl ⟨rfl, hbrk, p, rfl, routeHandler_ors_ok hmiss hbrk hors⟩))
      | none =>
        cases hgood : osrmGood (osrmPhase env (buildExcludeParam req.avoid)).1 with
        | false =>
          exact Or.inr (Or.inr (Or.inr (Or.inl
            ⟨rfl, hbrk, rfl, rfl, routeHandler_osrm_fail hmiss hbrk hors hgood⟩)))
        | true =>
          rcases osrmGood_shape hgood with ⟨j, rt, rest', hj, -, hr⟩
          exact Or.inr (Or.inr (Or.inr (Or.inr
            ⟨rfl, hbrk, rfl, rfl, j, rt, rest', hj, hr,
              routeHandler_osrm_ok hmiss hbrk hors hgood hj hr⟩)))

theorem cacheGet_cacheSet_self (cache : List (Chars × ℚ × Payload)) (ttl now1 now2 : ℚ)
    (k : Chars) (p : Payload) (h2 : now2 - now1 < ttl) :
    cacheGet (cacheSet cache k now1 p) ttl now2 k = some p := by
  unfold cacheGet cacheSet
  rw [List.find?_cons_of_pos _ (by simp)]
  simp [h2]

theorem cacheGet_relaxed_false {st : St} {ttl now : ℚ} {stops : List Pt} {p : Payload}
    (hinv : CacheInv st) (hg : cacheGet st.cache ttl now (keyFor stops []) = some p) :
    p.route_retry_relaxed = false := by
  unfold cacheGet at hg
  cases hf : st.cache.find? (fun e => e.1 == keyFor stops []) with
  | none => rw [hf] at hg; cases hg
  | some e =>
    rw [hf] at hg
    have hg' : (if now - e.2.1 < ttl then some e.2.2 else none) = some p := hg
    split at hg'
    · injection hg' with hg'
      rw [← hg']
      exact hinv stops e hf
    · cases hg'

theorem CacheInv_nil (b : ℚ) : CacheInv ⟨[], b⟩ := by
  intro stops e h
  simp [CacheInv] at h

theorem CacheInv_insert {st : St} (b' : ℚ) (stops' : List Pt) (avoid : List String)
    (now : ℚ) (p : Payload) (h : CacheInv st)
    (hp : p.route_retry_relaxed = true → buildExcludeParam avoid ≠ []) :
    CacheInv ⟨cacheSet st.cache (keyFor stops' (buildExcludeParam avoid)) now p, b'⟩ := by
  intro stops e hf
  unfold cacheSet at hf
  by_cases hk : ((keyFor stops' (buildExcludeParam avoid)) == keyFor stops []) = true
  · rw [List.find?_cons_of_pos _ (by simpa using hk)] at hf
    injection hf with hf
    rw [← hf]
    cases hrel : p.route_retry_relaxed with
    | false => rfl
    | true =>
      exfalso
      have hex := hp hrel
      have hkeq : keyFor stops' (buildExcludeParam avoid) = keyFor stops [] := eq_of_beq hk
      exact keyFor_nil_ne stops stops' hex (colon_not_mem_buildExcludeParam avoid) hkeq.symm
  · rw [List.find?_cons_of_neg _ (by simpa using hk)] at hf
    exact h stops e hf

theorem routeHandler_preserves_CacheInv (env : Env) (now : ℚ) (req : RouteReq) (st : St)
    (h : CacheInv st) : CacheInv (routeHandler env now req st).2.1 := by
  rcases routeHandler_total env now req st with
    ⟨p, -, heq⟩ | ⟨-, -, heq⟩ | ⟨-, -, p, hp, heq⟩ | ⟨-, -, -, -, heq⟩ |
    ⟨-, -, -, -, j, rt, rest', hj, hr, heq⟩
  · rw [heq]; exact h
  · rw [heq]; exact h
  · rw [heq]
    exact CacheInv_insert _ _ _ _ _ h
      (fun hrel => absurd (orsPhase_relaxed env req p hp) (by rw [hrel]; simp))
  · rw [heq]
    intro stops e hf
    exact h stops e hf
  · rw [heq]
    exact CacheInv_insert _ _ _ _ _ h
      (fun hrel => osrmPhase_relaxed_true env _ (by simpa [osrmPayload] using hrel))

end Roam.RouteApi

namespace Roam.RouteApi

theorem classifyCode_cases (r : OsrmResult) :
    classifyCode r = "provider_timeout" ∨ classifyCode r = "provider_error" := by
  unfold classifyCode
  split
  · exact Or.inl rfl
  · exact Or.inr rfl

theorem classifyCode_timeout_iff (r : OsrmResult) :
    classifyCode r = "provider_timeout" ↔ r = .netErr "timeout" := by
  constructor
  · intro h
    unfold classifyCode at h
    split at h
    · rfl
    · exact absurd h (by decide)
  · intro h
    rw [h]
    rfl

theorem openBreaker_http {s : ℕ} {b : String} {now fb : ℚ} (h : 500 ≤ s) :
    openBreaker (.httpErr s b) now fb = now + 60000 := by
  show (if 500 ≤ s then now + 60000 else fb) = now + 60000
  rw [if_pos h]

theorem openBreaker_net {e : String} {now fb : ℚ} (h : e ≠ "") :
    openBreaker (.netErr e) now fb = now + 30000 := by
  show (if e ≠ "" then now + 30000 else fb) = now + 30000
  rw [if_pos h]

theorem osrmCallsOf_ors_nil (env : Env) (req : RouteReq) :
    osrmCallsOf (orsPhase env req).2 = [] := by
  rcases orsPhase_trace env req with h | h <;> rw [h] <;> rfl

theorem primaryCalls_ors_zero (env : Env) (req : RouteReq) :
    primaryCalls (orsPhase env req).2 = 0 := by
  rcases orsPhase_trace env req with h | h <;> rw [h] <;> rfl

theorem osrmPhase_calls_le_two (env : Env) (ex : Chars) :
    primaryCalls (osrmPhase env ex).2.2 ≤ 2 := by
  rcases osrmPhase_cases env ex with h | h | h <;> rw [h] <;> simp [primaryCalls]

theorem routeHandler_trace_shape (env : Env) (now : ℚ) (req : RouteReq) (st : St) :
    (routeHandler env now req st).2.2 = [] ∨
    (routeHandler env now req st).2.2 = (orsPhase env req).2 ∨
    (routeHandler env now req st).2.2 =
      (orsPhase env req).2 ++ (osrmPhase env (buildExcludeParam req.avoid)).2.2 := by
  rcases routeHandler_total env now req st with
    ⟨p, -, heq⟩ | ⟨-, -, heq⟩ | ⟨-, -, p, -, heq⟩ | ⟨-, -, -, -, heq⟩ |
    ⟨-, -, -, -, j, rt, rest', -, -, heq⟩
  · rw [heq]; exact Or.inl rfl
  · rw [heq]; exact Or.inl rfl
  · rw [heq]; exact Or.inr (Or.inl rfl)
  · rw [heq]; exact Or.inr (Or.inr rfl)
  · rw [heq]; exact Or.inr (Or.inr rfl)

theorem routeHandler_primaryCalls_le_two (env : Env) (now : ℚ) (req : RouteReq) (st : St) :
    primaryCalls (routeHandler env now req st).2.2 ≤ 2 := by
  rcases routeHandler_trace_shape env now req st with h | h | h <;> rw [h]
  · exact Nat.zero_le 2
  · rw [primaryCalls_ors_zero]
    exact Nat.zero_le 2
  · unfold primaryCalls at *
    rw [List.countP_append]
    have h1 := primaryCalls_ors_zero env req
    unfold primaryCalls at h1
    rw [h1]
    have h2 := osrmPhase_calls_le_two env (buildExcludeParam req.avoid)
    unfold primaryCalls at h2
    omega

end Roam.RouteApi

/-! Section: the claims -/

namespace Roam

/-- C2: for every day plan built from a complete travel matrix (all entries
finite), the greedy nearest-neighbor ordering starts at origin index 0,
ends at the destination index `n-1` (appended unconditionally after the
loop), and visits every waypoint index exactly once — it is a permutation
of `0..n-1`.  Determinism for a fixed matrix is definitional: `nnOrder` is
a function of the matrix. -/
theorem C2_greedy_order_complete (n : ℕ) (dur : ℕ → ℕ → Option ℚ) (hn : 2 ≤ n)
    (hfin : ∀ i j, (dur i j).isSome = true) :
    (Planner.nnOrder n dur).head? = some 0 ∧
    (Planner.nnOrder n dur).getLast? = some (n - 1) ∧
    (Planner.nnOrder n dur).Perm (List.range n) :=
  ⟨Planner.nnOrder_head n dur, Planner.nnOrder_getLast n dur,
    Planner.nnOrder_perm n dur hn hfin⟩

/-- Witness for C2 at a concrete 4-waypoint matrix. -/
theorem C2_greedy_order_complete_witness :
    (Planner.nnOrder 4 (fun i j => some (((i + 2 * j) : ℕ) : ℚ))).head? = some 0 ∧
    (Planner.nnOrder 4 (fun i j => some (((i + 2 * j) : ℕ) : ℚ))).getLast? = some 3 ∧
    (Planner.nnOrder 4 (fun i j => some (((i + 2 * j) : ℕ) : ℚ))).Perm (List.range 4) :=
  C2_greedy_order_complete 4 _ (by norm_num) (fun i j => rfl)

/-- C9: in the greedy selection loop, scanned over a strictly increasing
list of unused indices (the insertion order of the JS `Set`), a selected
best index is a member, no unused index has strictly smaller travel time
(the comparison `d < bestd` is strict), and among indices with exactly the
minimal travel time the selected one is the smallest — the first minimal
candidate encountered wins. -/
theorem C9_tie_break_least_index (d : ℕ → Option ℚ) (unused : List ℕ) (b : ℕ)
    (hsorted : unused.Pairwise (· < ·)) (hsel : Planner.selectBest d unused = some b) :
    b ∈ unused ∧ (∀ j ∈ unused, Planner.jsLt (d j) (d b) = false) ∧
    (∀ j ∈ unused, d j = d b → b ≤ j) := by
  refine ⟨Planner.selectBest_mem hsel, ?_, ?_⟩
  · exact Planner.selectGo_min d unused none none b (fun x hx => by cases hx)
      (fun _ => rfl) hsel
  · exact Planner.selectGo_tie d unused none none b hsorted (fun x hx => by cases hx)
      (fun _ => rfl) hsel

/-- Witness for C9: a tie between indices 1 and 2 is broken towards 1. -/
theorem C9_tie_break_least_index_witness :
    1 ∈ [1, 2] ∧
    (∀ j ∈ [1, 2], Planner.jsLt ((fun _ : ℕ => (some 5 : Option ℚ)) j)
      ((fun _ : ℕ => (some 5 : Option ℚ)) 1) = false) ∧
    (∀ j ∈ [1, 2], (fun _ : ℕ => (some 5 : Option ℚ)) j =
      (fun _ : ℕ => (some 5 : Option ℚ)) 1 → 1 ≤ j) :=
  C9_tie_break_least_index (fun _ => some 5) [1, 2] 1 (by decide) (by decide)

/-- C10: a zero coordinate is falsy in the planner's truthiness tests — an
origin with `lat = 0` or `lon = 0` skips the direct-coordinates branch and
behaves exactly as an absent coordinate, failing with `invalid_request`
when no `origin_query` is given, and an explicit destination whose `lat`
is 0 is discarded, making the destination default to the origin. -/
theorem C10_zero_coord_truthiness :
    (∀ (lon : Option ℚ) (q : Option String) (s : String → Option (List Planner.PlaceHit)),
      Planner.resolvePlaceCenterByQueryOrCoords (some 0) lon q s =
        Planner.resolvePlaceCenterByQueryOrCoords none lon q s) ∧
    (∀ (lat : Option ℚ) (q : Option String) (s : String → Option (List Planner.PlaceHit)),
      Planner.resolvePlaceCenterByQueryOrCoords lat (some 0) q s =
        Planner.resolvePlaceCenterByQueryOrCoords lat none q s) ∧
    (∀ (lon : Option ℚ) (s : String → Option (List Planner.PlaceHit)),
      Planner.resolvePlaceCenterByQueryOrCoords (some 0) lon none s =
        .err "No coords or query provided") ∧
    (∀ (o : Option Planner.CoordSpec) (oq : Option String) (lonv lngv : Option ℚ)
      (s : String → Option (List Planner.PlaceHit)),
      Planner.planResolve o oq (some ⟨some 0, lonv, lngv⟩) s =
        Planner.planResolve o oq none s) ∧
    (∀ (lonv lngv : Option ℚ) (dspec : Option Planner.CoordSpec)
      (s : String → Option (List Planner.PlaceHit)),
      Planner.planResolve (some ⟨some 0, lonv, lngv⟩) none dspec s =
        .error "invalid_request") := by
  refine ⟨?_, ?_, ?_, ?_, ?_⟩
  · intro lon q s
    simp [Planner.resolvePlaceCenterByQueryOrCoords, truthyNum]
  · intro lat q s
    simp [Planner.resolvePlaceCenterByQueryOrCoords, truthyNum]
  · intro lon s
    simp [Planner.resolvePlaceCenterByQueryOrCoords, truthyNum, truthyStr]
  · intro o oq lonv lngv s
    unfold Planner.planResolve
    have hd : ∀ O, Planner.destCenter O (some ⟨some 0, lonv, lngv⟩) =
        Planner.destCenter O none := by
      intro O
      simp [Planner.destCenter, truthyNum]
    split
    · rfl
    · rw [hd]
  · intro lonv lngv dspec s
    simp [Planner.planResolve, Planner.resolvePlaceCenterByQueryOrCoords, truthyNum, truthyStr]

/-- Witness for C10 at concrete inputs (the theorem itself has no
hypotheses; this instantiates its first and last conjuncts). -/
theorem C10_zero_coord_truthiness_witness :
    Planner.resolvePlaceCenterByQueryOrCoords (some 0) (some 7) none (fun _ => none) =
      Planner.resolvePlaceCenterByQueryOrCoords none (some 7) none (fun _ => none) ∧
    Planner.planResolve (some ⟨some 0, some 7, none⟩) none none (fun _ => none) =
      .error "invalid_request" :=
  ⟨C10_zero_coord_truthiness.1 (some 7) none (fun _ => none),
    C10_zero_coord_truthiness.2.2.2.2 (some 7) none none (fun _ => none)⟩

end Roam

namespace Roam

/-- C3: the circuit breaker is a pure cooldown timer.  (a) While
`now < breakerUntil`, every non-cached (validated) route request fails
fast with `provider_unavailable`, the state is unchanged, and no upstream
call is made.  (b) When a run that reached the primary provider fails its
final check, the response code is `provider_timeout` exactly for an
aborted-by-timeout first attempt and `provider_error` otherwise, and the
breaker opens for 60 s on a 5xx status and 30 s on a truthy network error
(both relative to the failing attempt `env.osrm1`).  (c) A successful
result never opens the breaker.  (d) Once the cooldown has elapsed the
handler never answers `provider_unavailable` — dispatch resumes with no
manual reset. -/
theorem C3_breaker_cooldown (env : RouteApi.Env) (now : ℚ) (req : RouteApi.RouteReq)
    (st : RouteApi.St)
    (hmiss : RouteApi.cacheGet st.cache env.cacheTtl now
      (RouteApi.keyFor req.stops (RouteApi.buildExcludeParam req.avoid)) = none) :
    (now < st.breakerUntil →
      RouteApi.routeHandler env now req st = (.err 503 "provider_unavailable", st, [])) ∧
    (¬ now < st.breakerUntil → RouteApi.reachesPrimary env req →
      RouteApi.osrmGood
        (RouteApi.osrmPhase env (RouteApi.buildExcludeParam req.avoid)).1 = false →
      ((RouteApi.routeHandler env now req st).1 =
          .err 502 (RouteApi.classifyCode env.osrm1) ∧
        (RouteApi.routeHandler env now req st).2.1.breakerUntil =
          RouteApi.openBreaker env.osrm1 now st.breakerUntil ∧
        (RouteApi.classifyCode env.osrm1 = "provider_timeout" ↔
          env.osrm1 = .netErr "timeout") ∧
        (∀ s b, env.osrm1 = .httpErr s b → 500 ≤ s →
          RouteApi.openBreaker env.osrm1 now st.breakerUntil = now + 60000) ∧
        (∀ e, env.osrm1 = .netErr e → e ≠ "" →
          RouteApi.openBreaker env.osrm1 now st.breakerUntil = now + 30000))) ∧
    (∀ p, (RouteApi.routeHandler env now req st).1 = .ok p →
      (RouteApi.routeHandler env now req st).2.1.breakerUntil = st.breakerUntil) ∧
    (¬ now < st.breakerUntil →
      ∀ s c, (RouteApi.routeHandler env now req st).1 = .err s c →
        c ≠ "provider_unavailable") := by
  refine ⟨?_, ?_, ?_, ?_⟩
  · intro hb
    exact RouteApi.routeHandler_breaker_open hmiss hb
  · intro hbrk hreach hbad
    have hors := RouteApi.orsPhase_none_of_reaches env req hreach
    have heq := RouteApi.routeHandler_osrm_fail hmiss hbrk hors hbad
    have hfst := RouteApi.osrmPhase_fst_of_fail env (RouteApi.buildExcludeParam req.avoid) hbad
    refine ⟨?_, ?_, RouteApi.classifyCode_timeout_iff env.osrm1, ?_, ?_⟩
    · rw [heq, hfst]
    · rw [heq, hfst]
    · intro s b h1 h500
      rw [h1]
      exact RouteApi.openBreaker_http h500
    · intro e h1 hne
      rw [h1]
      exact RouteApi.openBreaker_net hne
  · intro p hp
    rcases RouteApi.routeHandler_total env now req st with
      ⟨p', -, heq⟩ | ⟨-, -, heq⟩ | ⟨-, -, p', -, heq⟩ | ⟨-, -, -, -, heq⟩ |
      ⟨-, -, -, -, j, rt, rest', -, -, heq⟩
    · rw [heq]
    · rw [heq]
    · rw [heq]
    · rw [heq] at hp
      simp at hp
    · rw [heq]
  · intro hbrk s c hp hc
    subst hc
    rcases RouteApi.routeHandler_total env now req st with
      ⟨p', hg, heq⟩ | ⟨-, hb, heq⟩ | ⟨-, -, p', -, heq⟩ | ⟨-, -, -, -, heq⟩ |
      ⟨-, -, -, -, j, rt, rest', -, -, heq⟩ <;> rw [heq] at hp
    · cases hp
    · exact hbrk hb
    · cases hp
    · injection hp with h1 h2
      rcases RouteApi.classifyCode_cases
          (RouteApi.osrmPhase env (RouteApi.buildExcludeParam req.avoid)).1 with hcc | hcc <;>
        rw [hcc] at h2 <;> exact absurd h2 (by decide)
    · cases hp

/-- Witness for C3: a concrete open-breaker fast-fail and a concrete
timeout-classified failure that opens the breaker for 30 s. -/
theorem C3_breaker_cooldown_witness :
    RouteApi.routeHandler
        ⟨false, .fail, .netErr "timeout", .netErr "timeout", 300000⟩ 0 ⟨[], []⟩ ⟨[], 5⟩ =
      (.err 503 "provider_unavailable", ⟨[], 5⟩, []) ∧
    ((RouteApi.routeHandler
        ⟨false, .fail, .netErr "timeout", .netErr "timeout", 300000⟩ 0 ⟨[], []⟩ ⟨[], 0⟩).1 =
      .err 502 (RouteApi.classifyCode (.netErr "timeout")) ∧
    (RouteApi.routeHandler
        ⟨false, .fail, .netErr "timeout", .netErr "timeout", 300000⟩ 0 ⟨[], []⟩ ⟨[], 0⟩).2.1.breakerUntil =
      RouteApi.openBreaker (.netErr "timeout") 0 0) := by
  constructor
  · exact (C3_breaker_cooldown
      ⟨false, .fail, .netErr "timeout", .netErr "timeout", 300000⟩ 0 ⟨[], []⟩ ⟨[], 5⟩
      rfl).1 (by norm_num)
  · have hbad : RouteApi.osrmGood
        (RouteApi.osrmPhase ⟨false, .fail, .netErr "timeout", .netErr "timeout", 300000⟩
          (RouteApi.buildExcludeParam ([] : List String))).1 = false := by
      rw [RouteApi.osrmPhase_retry_fail
        ⟨false, .fail, .netErr "timeout", .netErr "timeout", 300000⟩
        (RouteApi.buildExcludeParam ([] : List String)) rfl rfl]
      rfl
    have h := (C3_breaker_cooldown
      ⟨false, .fail, .netErr "timeout", .netErr "timeout", 300000⟩ 0 ⟨[], []⟩ ⟨[], 0⟩ rfl).2.1
      (by norm_num) (Or.inl rfl) hbad
    exact ⟨h.1, h.2.1⟩

/-- C5: `constraint_relaxed` (the payload field `route_retry_relaxed`) is
true only if the caller requested at least one avoid term and the final
result was produced by the avoid-stripped retry (the last upstream call of
a fresh computation is the no-exclude OSRM call); in particular, whenever
avoidance is not requested, every successful outcome — cache hit,
secondary-provider success, primary first-attempt success, or retry
success — carries `route_retry_relaxed = false`.  The `CacheInv`
hypothesis holds of every reachable state: it holds of the empty initial
cache (`CacheInv_nil`) and is preserved by every invocation
(`routeHandler_preserves_CacheInv`). -/
theorem C5_relaxed_only_with_avoid (env : RouteApi.Env) (now : ℚ) (req : RouteApi.RouteReq)
    (st : RouteApi.St) (hinv : RouteApi.CacheInv st) :
    (req.avoid = [] → ∀ p, (RouteApi.routeHandler env now req st).1 = .ok p →
      p.route_retry_relaxed = false) ∧
    (∀ p, (RouteApi.routeHandler env now req st).1 = .ok p →
      p.route_retry_relaxed = true →
      req.avoid ≠ [] ∧
      ((RouteApi.routeHandler env now req st).2.2 ≠ [] →
        (RouteApi.routeHandler env now req st).2.2.getLast? = some (.osrm []))) := by
  have hrelax : ∀ p, (RouteApi.routeHandler env now req st).1 = .ok p →
      p.route_retry_relaxed = true →
      RouteApi.buildExcludeParam req.avoid ≠ [] ∨
      RouteApi.cacheGet st.cache env.cacheTtl now
        (RouteApi.keyFor req.stops (RouteApi.buildExcludeParam req.avoid)) = some p := by
    intro p hp hrel
    rcases RouteApi.routeHandler_total env now req st with
      ⟨p', hg, heq⟩ | ⟨-, -, heq⟩ | ⟨-, -, p', hors, heq⟩ | ⟨-, -, -, -, heq⟩ |
      ⟨-, -, -, -, j, rt, rest', hj, hr, heq⟩ <;> rw [heq] at hp
    · have hp' : RouteApi.Resp.ok p' = RouteApi.Resp.ok p := hp
      injection hp' with hp1
      subst hp1
      exact Or.inr hg
    · cases hp
    · have hp' : RouteApi.Resp.ok p' = RouteApi.Resp.ok p := hp
      injection hp' with hp1
      subst hp1
      rw [RouteApi.orsPhase_relaxed env req p' hors] at hrel
      cases hrel
    · cases hp
    · have hp' : RouteApi.Resp.ok
          (RouteApi.osrmPayload rt
            (RouteApi.osrmPhase env (RouteApi.buildExcludeParam req.avoid)).2.1) =
          RouteApi.Resp.ok p := hp
      injection hp' with hp1
      have : (RouteApi.osrmPhase env (RouteApi.buildExcludeParam req.avoid)).2.1 = true := by
        rw [← hp1] at hrel
        simpa [RouteApi.osrmPayload] using hrel
      exact Or.inl (RouteApi.osrmPhase_relaxed_true env _ this)
  constructor
  · intro ha p hp
    cases hrel : p.route_retry_relaxed with
    | false => rfl
    | true =>
      exfalso
      rcases hrelax p hp hrel with hex | hg
      · exact hex (by rw [ha, RouteApi.buildExcludeParam_nil])
      · rw [ha, RouteApi.buildExcludeParam_nil] at hg
        rw [RouteApi.cacheGet_relaxed_false hinv hg] at hrel
        cases hrel
  · intro p hp hrel
    constructor
    · rcases hrelax p hp hrel with hex | hg
      · exact RouteApi.avoid_ne_of_exclude_ne hex
      · intro ha
        rw [ha, RouteApi.buildExcludeParam_nil] at hg
        rw [RouteApi.cacheGet_relaxed_false hinv hg] at hrel
        cases hrel
    · intro hne
      rcases RouteApi.routeHandler_total env now req st with
        ⟨p', hg, heq⟩ | ⟨-, -, heq⟩ | ⟨-, -, p', hors, heq⟩ | ⟨-, -, -, -, heq⟩ |
        ⟨-, -, -, -, j, rt, rest', hj, hr, heq⟩
      · rw [heq] at hne
        exact absurd rfl hne
      · rw [heq] at hp
        cases hp
      · rw [heq] at hp
        have hp' : RouteApi.Resp.ok p' = RouteApi.Resp.ok p := hp
        injection hp' with hp1
        subst hp1
        rw [RouteApi.orsPhase_relaxed env req p' hors] at hrel
        cases hrel
      · rw [heq] at hp
        cases hp
      · rw [heq] at hp ⊢
        have hp' : RouteApi.Resp.ok
            (RouteApi.osrmPayload rt
              (RouteApi.osrmPhase env (RouteApi.buildExcludeParam req.avoid)).2.1) =
            RouteApi.Resp.ok p := hp
        injection hp' with hp1
        have hrel' : (RouteApi.osrmPhase env (RouteApi.buildExcludeParam req.avoid)).2.1 = true := by
          rw [← hp1] at hrel
          simpa [RouteApi.osrmPayload] using hrel
        have hretry : RouteApi.osrmPhase env (RouteApi.buildExcludeParam req.avoid) =
            (env.osrm2, !(RouteApi.buildExcludeParam req.avoid).isEmpty,
              [.osrm (RouteApi.buildExcludeParam req.avoid), .osrm []]) := by
          rcases RouteApi.osrmPhase_cases env (RouteApi.buildExcludeParam req.avoid) with
            hc | hc | hc
          · rw [hc] at hrel'; cases hrel'
          · exact hc
          · rw [hc] at hrel'; cases hrel'
        rw [hretry]
        rw [show (RouteApi.orsPhase env req).2 ++
            [RouteApi.UpCall.osrm (RouteApi.buildExcludeParam req.avoid),
              RouteApi.UpCall.osrm []] =
            ((RouteApi.orsPhase env req).2 ++
              [RouteApi.UpCall.osrm (RouteApi.buildExcludeParam req.avoid)]) ++
              [RouteApi.UpCall.osrm []] by
          simp]
        exact List.getLast?_concat _

/-- Witness for C5: the empty initial state satisfies the cache invariant,
and an avoid-free request that succeeds on the first OSRM attempt returns
an unrelaxed payload. -/
theorem C5_relaxed_only_with_avoid_witness :
    ∃ p, (RouteApi.routeHandler
        ⟨false, .fail, .okJson ⟨"Ok", [⟨3, 4, ⟨[]⟩⟩]⟩, .netErr "z", 300000⟩ 0 ⟨[], []⟩
        ⟨[], 0⟩).1 = .ok p ∧ p.route_retry_relaxed = false := by
  have hphase := RouteApi.osrmPhase_first_ok
    ⟨false, .fail, .okJson ⟨"Ok", [⟨3, 4, ⟨[]⟩⟩]⟩, .netErr "z", 300000⟩
    (RouteApi.buildExcludeParam ([] : List String)) rfl
  have hgood : RouteApi.osrmGood (RouteApi.osrmPhase
      ⟨false, .fail, .okJson ⟨"Ok", [⟨3, 4, ⟨[]⟩⟩]⟩, .netErr "z", 300000⟩
      (RouteApi.buildExcludeParam ([] : List String))).1 = true := by
    rw [hphase]
    rfl
  have hj : (RouteApi.osrmPhase
      ⟨false, .fail, .okJson ⟨"Ok", [⟨3, 4, ⟨[]⟩⟩]⟩, .netErr "z", 300000⟩
      (RouteApi.buildExcludeParam ([] : List String))).1 =
      .okJson ⟨"Ok", [⟨3, 4, ⟨[]⟩⟩]⟩ := by
    rw [hphase]
  have hrun := @RouteApi.routeHandler_osrm_ok
    ⟨false, .fail, .okJson ⟨"Ok", [⟨3, 4, ⟨[]⟩⟩]⟩, .netErr "z", 300000⟩ 0 ⟨[], []⟩ ⟨[], 0⟩
    ⟨"Ok", [⟨3, 4, ⟨[]⟩⟩]⟩ ⟨3, 4, ⟨[]⟩⟩ [] rfl (lt_irrefl 0) rfl hgood hj rfl
  refine ⟨RouteApi.osrmPayload ⟨3, 4, ⟨[]⟩⟩
      (RouteApi.osrmPhase
        ⟨false, .fail, .okJson ⟨"Ok", [⟨3, 4, ⟨[]⟩⟩]⟩, .netErr "z", 300000⟩
        (RouteApi.buildExcludeParam ([] : List String))).2.1,
    by rw [hrun], ?_⟩
  exact (C5_relaxed_only_with_avoid
      ⟨false, .fail, .okJson ⟨"Ok", [⟨3, 4, ⟨[]⟩⟩]⟩, .netErr "z", 300000⟩ 0 ⟨[], []⟩ ⟨[], 0⟩
      (RouteApi.CacheInv_nil 0)).1 rfl _ (by rw [hrun])

/-! Section: claim C1 (the retry trigger and call bound) -/

namespace RouteApi

theorem osrmGood_of_okCode_false {r : OsrmResult} (h : osrmOkCode r = false) :
    osrmGood r = false := by
  cases r with
  | okJson j =>
    have hc : (j.code == "Ok") = false := h
    simp [osrmGood, hc]
  | httpErr s b => rfl
  | netErr e => rfl

theorem routeHandler_trace_of_miss {env : Env} {now : ℚ} {req : RouteReq} {st : St}
    (hmiss : cacheGet st.cache env.cacheTtl now
      (keyFor req.stops (buildExcludeParam req.avoid)) = none)
    (hbrk : ¬ now < st.breakerUntil)
    (hors : (orsPhase env req).1 = none) :
    (routeHandler env now req st).2.2 =
      (orsPhase env req).2 ++ (osrmPhase env (buildExcludeParam req.avoid)).2.2 := by
  cases hgood : osrmGood (osrmPhase env (buildExcludeParam req.avoid)).1 with
  | false => rw [routeHandler_osrm_fail hmiss hbrk hors hgood]
  | true =>
    rcases osrmGood_shape hgood with ⟨j, rt, rest, hj, -, hr⟩
    rw [routeHandler_osrm_ok hmiss hbrk hors hgood hj hr]

theorem osrmCallsOf_append (l l' : List UpCall) :
    osrmCallsOf (l ++ l') = osrmCallsOf l ++ osrmCallsOf l' := by
  unfold osrmCallsOf
  exact List.filter_append _ _

end RouteApi

/-- Claim C1 is refuted: a first primary attempt that returns code `Ok`
with zero routes does not trigger the retry — the code retries on
`!first.ok || code !== 'Ok'` only, so a single primary call is made even
though the attempt "yields zero routes". -/
theorem C1_counterexample : ¬ C1Stated := by
  intro h
  have h2 := h ⟨false, .fail, .okJson ⟨"Ok", []⟩, .okJson ⟨"Ok", []⟩, 300000⟩ 0 ⟨[], []⟩ ⟨[], 0⟩
    (Or.inl rfl) rfl le_rfl (by simp [RouteApi.osrmGood])
  have hcount : RouteApi.primaryCalls
      (RouteApi.routeHandler ⟨false, .fail, .okJson ⟨"Ok", []⟩, .okJson ⟨"Ok", []⟩, 300000⟩
        0 ⟨[], []⟩ ⟨[], 0⟩).2.2 = 1 := by
    rw [@RouteApi.routeHandler_trace_of_miss
      ⟨false, .fail, .okJson ⟨"Ok", []⟩, .okJson ⟨"Ok", []⟩, 300000⟩ 0 ⟨[], []⟩ ⟨[], 0⟩
      rfl (lt_irrefl 0) rfl]
    rw [RouteApi.osrmPhase_first_ok _ _ (by simp [RouteApi.osrmOkCode])]
    rfl
  rw [hcount] at h2
  exact absurd h2 (by decide)

/-- C1 (amended): for a route computation that reaches the primary
provider (cache miss, breaker closed, no ORS payload), the retry is
triggered exactly when the first primary attempt fails or returns a
non-success routing code (`osrmOkCode env.osrm1 = false`) — a code-`Ok`
response with zero routes does NOT trigger it: that case makes a single
primary call and fails with 502 `provider_error`; when triggered, exactly
two primary calls are made, the second with the exclude stripped, and a
fully successful retry is accepted with `route_retry_relaxed` true iff the
original request had at least one avoid term (for requests whose avoid
terms are all recognized by `AVOID_MAP`); in all cases at most two primary
calls are made. -/
theorem C1_retry_amended (env : RouteApi.Env) (now : ℚ) (req : RouteApi.RouteReq)
    (st : RouteApi.St)
    (hreach : RouteApi.reachesPrimary env req)
    (hmiss : RouteApi.cacheGet st.cache env.cacheTtl now
      (RouteApi.keyFor req.stops (RouteApi.buildExcludeParam req.avoid)) = none)
    (hbrk : ¬ now < st.breakerUntil)
    (hall : ∀ a ∈ req.avoid, a ∈ (["tolls", "ferries", "highways"] : List String)) :
    (RouteApi.osrmOkCode env.osrm1 = false →
      RouteApi.osrmCallsOf (RouteApi.routeHandler env now req st).2.2 =
        [.osrm (RouteApi.buildExcludeParam req.avoid), .osrm []] ∧
      ∀ j rt rest, env.osrm2 = .okJson j → j.code = "Ok" → j.routes = rt :: rest →
        (RouteApi.routeHandler env now req st).1 =
          .ok (RouteApi.osrmPayload rt (!req.avoid.isEmpty))) ∧
    (RouteApi.osrmOkCode env.osrm1 = true →
      RouteApi.osrmCallsOf (RouteApi.routeHandler env now req st).2.2 =
        [.osrm (RouteApi.buildExcludeParam req.avoid)]) ∧
    (RouteApi.osrmOkCode env.osrm1 = true → RouteApi.osrmGood env.osrm1 = false →
      (RouteApi.routeHandler env now req st).1 = .err 502 "provider_error") ∧
    RouteApi.primaryCalls (RouteApi.routeHandler env now req st).2.2 ≤ 2 := by
  have hors := RouteApi.orsPhase_none_of_reaches env req hreach
  refine ⟨fun hfirst => ⟨?_, ?_⟩, fun hfirst => ?_, fun hfirst hbad => ?_, ?_⟩
  · rw [RouteApi.routeHandler_trace_of_miss hmiss hbrk hors, RouteApi.osrmCallsOf_append,
      RouteApi.osrmCallsOf_ors_nil]
    cases hg2 : RouteApi.osrmGood env.osrm2 with
    | true => rw [RouteApi.osrmPhase_retry_ok env _ hfirst hg2]; rfl
    | false => rw [RouteApi.osrmPhase_retry_fail env _ hfirst hg2]; rfl
  · intro j rt rest hj hcode hr
    have hg2 : RouteApi.osrmGood env.osrm2 = true := by
      rw [hj]
      simp [RouteApi.osrmGood, hcode, hr]
    have hphase :=
      RouteApi.osrmPhase_retry_ok env (RouteApi.buildExcludeParam req.avoid) hfirst hg2
    have hgood : RouteApi.osrmGood
        (RouteApi.osrmPhase env (RouteApi.buildExcludeParam req.avoid)).1 = true := by
      rw [hphase]
      exact hg2
    have hj' : (RouteApi.osrmPhase env (RouteApi.buildExcludeParam req.avoid)).1 =
        .okJson j := by
      rw [hphase]
      exact hj
    rw [RouteApi.routeHandler_osrm_ok hmiss hbrk hors hgood hj' hr]
    have hrel : (RouteApi.osrmPhase env (RouteApi.buildExcludeParam req.avoid)).2.1 =
        !req.avoid.isEmpty := by
      rw [hphase]
      show (!(RouteApi.buildExcludeParam req.avoid).isEmpty) = !req.avoid.isEmpty
      rw [RouteApi.exclude_isEmpty_eq hall]
    show RouteApi.Resp.ok (RouteApi.osrmPayload rt
        (RouteApi.osrmPhase env (RouteApi.buildExcludeParam req.avoid)).2.1) =
      RouteApi.Resp.ok (RouteApi.osrmPayload rt (!req.avoid.isEmpty))
    rw [hrel]
  · rw [RouteApi.routeHandler_trace_of_miss hmiss hbrk hors, RouteApi.osrmCallsOf_append,
      RouteApi.osrmCallsOf_ors_nil, RouteApi.osrmPhase_first_ok env _ hfirst]
    rfl
  · have hphase := RouteApi.osrmPhase_first_ok env (RouteApi.buildExcludeParam req.avoid) hfirst
    have hgood' : RouteApi.osrmGood
        (RouteApi.osrmPhase env (RouteApi.buildExcludeParam req.avoid)).1 = false := by
      rw [hphase]
      exact hbad
    have hclass : RouteApi.classifyCode env.osrm1 = "provider_error" := by
      cases hshape : env.osrm1 with
      | okJson j => rfl
      | httpErr a b =>
        rw [hshape] at hfirst
        cases hfirst
      | netErr e =>
        rw [hshape] at hfirst
        cases hfirst
    rw [RouteApi.routeHandler_osrm_fail hmiss hbrk hors hgood']
    show RouteApi.Resp.err 502 (RouteApi.classifyCode
        (RouteApi.osrmPhase env (RouteApi.buildExcludeParam req.avoid)).1) =
      RouteApi.Resp.err 502 "provider_error"
    rw [hphase]
    show RouteApi.Resp.err 502 (RouteApi.classifyCode env.osrm1) =
      RouteApi.Resp.err 502 "provider_error"
    rw [hclass]
  · exact RouteApi.routeHandler_primaryCalls_le_two env now req st

/-- Witness for C1 (amended) on concrete runs: a network failure followed
by a successful relaxed retry makes exactly the two primary calls, within
the bound; and a code-Ok response with zero routes fails with 502
provider_error. -/
theorem C1_retry_amended_witness :
    RouteApi.osrmCallsOf
        (RouteApi.routeHandler
          ⟨false, .fail, .netErr "x", .okJson ⟨"Ok", [⟨1, 2, ⟨[]⟩⟩]⟩, 300000⟩
          0 ⟨[], []⟩ ⟨[], 0⟩).2.2 =
      [.osrm (RouteApi.buildExcludeParam []), .osrm []] ∧
    RouteApi.primaryCalls
        (RouteApi.routeHandler
          ⟨false, .fail, .netErr "x", .okJson ⟨"Ok", [⟨1, 2, ⟨[]⟩⟩]⟩, 300000⟩
          0 ⟨[], []⟩ ⟨[], 0⟩).2.2 ≤ 2 ∧
    (RouteApi.routeHandler ⟨false, .fail, .okJson ⟨"Ok", []⟩, .netErr "w", 200000⟩
        0 ⟨[], []⟩ ⟨[], 0⟩).1 = .err 502 "provider_error" := by
  have h := C1_retry_amended
    ⟨false, .fail, .netErr "x", .okJson ⟨"Ok", [⟨1, 2, ⟨[]⟩⟩]⟩, 300000⟩ 0 ⟨[], []⟩ ⟨[], 0⟩
    (Or.inl rfl) rfl (lt_irrefl 0) (by simp)
  have h2 := C1_retry_amended
    ⟨false, .fail, .okJson ⟨"Ok", []⟩, .netErr "w", 200000⟩ 0 ⟨[], []⟩ ⟨[], 0⟩
    (Or.inl rfl) rfl (lt_irrefl 0) (by simp)
  exact ⟨(h.1 rfl).1, h.2.2.2, h2.2.2.1 rfl rfl⟩

/-! Section: claim C4 (cache-hit immediacy and the per-invocation call count) -/

/-- Claim C4 is refuted on its call-count half: a single request (a cache
miss whose first primary attempt fails and whose retry succeeds) already
makes two upstream calls, so two same-key requests are not bounded by one
upstream call in total. -/
theorem C4_counterexample : ¬ C4Stated := by
  intro h
  have hg2 : RouteApi.osrmGood (.okJson ⟨"Ok", [⟨1, 2, ⟨[]⟩⟩]⟩) = true := rfl
  have hphase := RouteApi.osrmPhase_retry_ok
    ⟨false, .fail, .netErr "x", .okJson ⟨"Ok", [⟨1, 2, ⟨[]⟩⟩]⟩, 300000⟩
    (RouteApi.buildExcludeParam ([] : List String)) rfl hg2
  have hgood : RouteApi.osrmGood
      (RouteApi.osrmPhase ⟨false, .fail, .netErr "x", .okJson ⟨"Ok", [⟨1, 2, ⟨[]⟩⟩]⟩, 300000⟩
        (RouteApi.buildExcludeParam ([] : List String))).1 = true := by
    rw [hphase]
    exact hg2
  have hj : (RouteApi.osrmPhase ⟨false, .fail, .netErr "x", .okJson ⟨"Ok", [⟨1, 2, ⟨[]⟩⟩]⟩, 300000⟩
      (RouteApi.buildExcludeParam ([] : List String))).1 = .okJson ⟨"Ok", [⟨1, 2, ⟨[]⟩⟩]⟩ := by
    rw [hphase]
  have hrun := @RouteApi.routeHandler_osrm_ok
    ⟨false, .fail, .netErr "x", .okJson ⟨"Ok", [⟨1, 2, ⟨[]⟩⟩]⟩, 300000⟩ 0 ⟨[], []⟩ ⟨[], 0⟩
    ⟨"Ok", [⟨1, 2, ⟨[]⟩⟩]⟩ ⟨1, 2, ⟨[]⟩⟩ [] rfl (lt_irrefl 0) rfl hgood hj rfl
  have h2 := h ⟨false, .fail, .netErr "x", .okJson ⟨"Ok", [⟨1, 2, ⟨[]⟩⟩]⟩, 300000⟩
    ⟨false, .fail, .netErr "x", .okJson ⟨"Ok", [⟨1, 2, ⟨[]⟩⟩]⟩, 300000⟩ 0 0
    ⟨[], []⟩ ⟨[], []⟩ ⟨[], 0⟩
    (RouteApi.osrmPayload ⟨1, 2, ⟨[]⟩⟩
      (RouteApi.osrmPhase ⟨false, .fail, .netErr "x", .okJson ⟨"Ok", [⟨1, 2, ⟨[]⟩⟩]⟩, 300000⟩
        (RouteApi.buildExcludeParam ([] : List String))).2.1)
    rfl le_rfl (by norm_num) rfl (by rw [hrun])
  rcases h2 with ⟨hle, -⟩
  have hlen : (RouteApi.routeHandler
      ⟨false, .fail, .netErr "x", .okJson ⟨"Ok", [⟨1, 2, ⟨[]⟩⟩]⟩, 300000⟩ 0
      ⟨[], []⟩ ⟨[], 0⟩).2.2.length = 2 := by
    rw [hrun]
    rfl
  rw [hlen] at hle
  omega

/-- C4 (amended): a valid cache hit is returned immediately — the handler
returns the cached payload verbatim with an empty upstream trace and an
unchanged state, whatever the breaker timestamp (no breaker check); and a
second request whose normalized key equals that of an earlier request that
produced a payload by actually calling upstream observes that payload
verbatim within the TTL window, with no upstream call of its own.  The
first caller itself may make up to two primary calls, so the total bound
of one upstream call in the original claim fails. -/
theorem C4_cache_amended :
    (∀ (env : RouteApi.Env) (now : ℚ) (req : RouteApi.RouteReq)
        (cache : List (Chars × ℚ × RouteApi.Payload)) (b : ℚ) (p : RouteApi.Payload),
      RouteApi.cacheGet cache env.cacheTtl now
          (RouteApi.keyFor req.stops (RouteApi.buildExcludeParam req.avoid)) = some p →
      RouteApi.routeHandler env now req ⟨cache, b⟩ = (.ok p, ⟨cache, b⟩, [])) ∧
    (∀ (env1 env2 : RouteApi.Env) (now1 now2 : ℚ) (req1 req2 : RouteApi.RouteReq)
        (st0 : RouteApi.St) (p : RouteApi.Payload),
      RouteApi.keyFor req2.stops (RouteApi.buildExcludeParam req2.avoid) =
        RouteApi.keyFor req1.stops (RouteApi.buildExcludeParam req1.avoid) →
      now2 - now1 < env1.cacheTtl → env2.cacheTtl = env1.cacheTtl →
      (RouteApi.routeHandler env1 now1 req1 st0).1 = .ok p →
      (RouteApi.routeHandler env1 now1 req1 st0).2.2 ≠ [] →
      RouteApi.routeHandler env2 now2 req2 (RouteApi.routeHandler env1 now1 req1 st0).2.1 =
        (.ok p, (RouteApi.routeHandler env1 now1 req1 st0).2.1, [])) := by
  constructor
  · intro env now req cache b p hhit
    exact RouteApi.routeHandler_cache_hit hhit
  · intro env1 env2 now1 now2 req1 req2 st0 p hkey hlt httl hp hne
    rcases RouteApi.routeHandler_total env1 now1 req1 st0 with
      ⟨p', hg, heq⟩ | ⟨-, -, heq⟩ | ⟨-, -, p', hors, heq⟩ | ⟨-, -, -, -, heq⟩ |
      ⟨-, -, -, -, j, rt, rest', hj, hr, heq⟩
    · rw [heq] at hne
      exact absurd rfl hne
    · rw [heq] at hp
      cases hp
    · rw [heq] at hp ⊢
      have hp' : RouteApi.Resp.ok p' = RouteApi.Resp.ok p := hp
      injection hp' with hp1
      subst hp1
      have hcg : RouteApi.cacheGet
          (RouteApi.cacheSet st0.cache
            (RouteApi.keyFor req1.stops (RouteApi.buildExcludeParam req1.avoid)) now1 p')
          env2.cacheTtl now2
          (RouteApi.keyFor req2.stops (RouteApi.buildExcludeParam req2.avoid)) = some p' := by
        rw [hkey, httl]
        exact RouteApi.cacheGet_cacheSet_self st0.cache env1.cacheTtl now1 now2 _ p' hlt
      exact RouteApi.routeHandler_cache_hit hcg
    · rw [heq] at hp
      cases hp
    · rw [heq] at hp ⊢
      have hp' : RouteApi.Resp.ok
          (RouteApi.osrmPayload rt
            (RouteApi.osrmPhase env1 (RouteApi.buildExcludeParam req1.avoid)).2.1) =
          RouteApi.Resp.ok p := hp
      injection hp' with hp1
      have hcg : RouteApi.cacheGet
          (RouteApi.cacheSet st0.cache
            (RouteApi.keyFor req1.stops (RouteApi.buildExcludeParam req1.avoid)) now1
            (RouteApi.osrmPayload rt
              (RouteApi.osrmPhase env1 (RouteApi.buildExcludeParam req1.avoid)).2.1))
          env2.cacheTtl now2
          (RouteApi.keyFor req2.stops (RouteApi.buildExcludeParam req2.avoid)) = some p := by
        rw [hkey, httl,
          RouteApi.cacheGet_cacheSet_self st0.cache env1.cacheTtl now1 now2 _ _ hlt, hp1]
      exact RouteApi.routeHandler_cache_hit hcg

/-- Witness for C4 (amended): a concrete cache hit is served verbatim with
no upstream call and no breaker check — the breaker is open (`5 < 99`) and
the request still succeeds from the cache. -/
theorem C4_cache_amended_witness :
    RouteApi.routeHandler ⟨false, .fail, .netErr "y", .netErr "y", 300000⟩ 5 ⟨[], []⟩
        ⟨[(RouteApi.keyFor [] (RouteApi.buildExcludeParam []), 0, ⟨1, 2, ⟨[]⟩, false⟩)], 99⟩ =
      (.ok ⟨1, 2, ⟨[]⟩, false⟩,
        ⟨[(RouteApi.keyFor [] (RouteApi.buildExcludeParam []), 0, ⟨1, 2, ⟨[]⟩, false⟩)], 99⟩,
        []) := by
  have hcg : RouteApi.cacheGet
      [(RouteApi.keyFor [] (RouteApi.buildExcludeParam []), 0, ⟨1, 2, ⟨[]⟩, false⟩)]
      (300000 : ℚ) 5 (RouteApi.keyFor [] (RouteApi.buildExcludeParam [])) =
      some ⟨1, 2, ⟨[]⟩, false⟩ := by
    unfold RouteApi.cacheGet
    rw [List.find?_cons_of_pos _ (by simp)]
    show (if (5 : ℚ) - 0 < 300000 then
        some (⟨1, 2, ⟨[]⟩, false⟩ : RouteApi.Payload) else none) =
      some ⟨1, 2, ⟨[]⟩, false⟩
    rw [if_pos (by norm_num)]
  exact C4_cache_amended.1 ⟨false, .fail, .netErr "y", .netErr "y", 300000⟩ 5 ⟨[], []⟩
    [(RouteApi.keyFor [] (RouteApi.buildExcludeParam []), 0, ⟨1, 2, ⟨[]⟩, false⟩)] 99
    ⟨1, 2, ⟨[]⟩, false⟩ hcg

/-! Section: claim C6 (the SAR result invariants) -/

namespace Sar

theorem sar_take_invariants (L : List Scored) (k : ℕ) (mdm : ℚ)
    (hd : ∀ s ∈ L, (s.detour_min : ℚ) ≤ mdm)
    (hnd : (L.map (fun s => s.place_id)).Nodup) :
    (∀ s ∈ (L.mergeSort sarLeb).take k, (s.detour_min : ℚ) ≤ mdm) ∧
    (((L.mergeSort sarLeb).take k).map (fun s => s.place_id)).Nodup ∧
    ((L.mergeSort sarLeb).take k).Pairwise sarLE ∧
    ((L.mergeSort sarLeb).take k).length ≤ k := by
  have hperm : (L.mergeSort sarLeb).Perm L := List.mergeSort_perm L sarLeb
  refine ⟨?_, ?_, ?_, ?_⟩
  · intro s hs
    exact hd s (hperm.mem_iff.mp ((List.take_sublist k _).subset hs))
  · have h1 : ((L.mergeSort sarLeb).map (fun s => s.place_id)).Nodup :=
      (hperm.map _).nodup_iff.mpr hnd
    rw [List.map_take]
    exact h1.sublist (List.take_sublist _ _)
  · exact (mergeSort_sarLE_pairwise L).sublist (List.take_sublist _ _)
  · exact List.length_take_le _ _

end Sar

/-- C6: every `searchAlongRoute` result list contains no candidate whose
computed detour exceeds `maxDetourMin`, carries no duplicate place ids, is
sorted by the comparator order `sarLE` (ascending detour, ties broken by
descending `rating * ln(1 + reviews)` score), and has length at most
`maxResults`. -/
theorem C6_sar_invariants (search : Pt → Option (List Sar.RawPlace))
    (mtx : String → List Pt → Option Sar.DurMatrix) (query : String) (maxResults : ℕ)
    (maxDetourMin : ℚ) (stops : List Pt) (mode : String) :
    (∀ s ∈ Sar.searchAlongRoute search mtx query maxResults maxDetourMin stops mode,
      (s.detour_min : ℚ) ≤ maxDetourMin) ∧
    ((Sar.searchAlongRoute search mtx query maxResults maxDetourMin stops mode).map
        (fun s => s.place_id)).Nodup ∧
    (Sar.searchAlongRoute search mtx query maxResults maxDetourMin stops mode).Pairwise
      Sar.sarLE ∧
    (Sar.searchAlongRoute search mtx query maxResults maxDetourMin stops mode).length ≤
      maxResults := by
  by_cases hg : (query == "" || stops.length < 2) = true
  · have hE : Sar.searchAlongRoute search mtx query maxResults maxDetourMin stops mode = [] := by
      unfold Sar.searchAlongRoute
      rw [if_pos hg]
    rw [hE]
    exact ⟨by simp, by simp, by simp, by simp⟩
  · by_cases hc : (Sar.collectCands search
        ((Sar.sampleIdxs stops.length).map fun i => stops.getD i ⟨0, 0⟩) [] []).isEmpty = true
    · have hE : Sar.searchAlongRoute search mtx query maxResults maxDetourMin stops mode = [] := by
        unfold Sar.searchAlongRoute
        rw [if_neg hg]
        show (if (Sar.collectCands search
              ((Sar.sampleIdxs stops.length).map fun i => stops.getD i ⟨0, 0⟩) [] []).isEmpty =
            true then ([] : List Sar.Scored) else _) = []
        rw [if_pos hc]
      rw [hE]
      exact ⟨by simp, by simp, by simp, by simp⟩
    · have hE : Sar.searchAlongRoute search mtx query maxResults maxDetourMin stops mode =
          ((Sar.scoreCandidates mtx mode.toUpper
              (((Sar.sampleIdxs stops.length).map fun i => stops.getD i ⟨0, 0⟩).headD ⟨0, 0⟩)
              ((((Sar.sampleIdxs stops.length).map fun i =>
                  stops.getD i ⟨0, 0⟩).getLast?).getD ⟨0, 0⟩)
              maxDetourMin
              (Sar.collectCands search
                ((Sar.sampleIdxs stops.length).map fun i =>
                  stops.getD i ⟨0, 0⟩) [] [])).mergeSort Sar.sarLeb).take maxResults := by
        unfold Sar.searchAlongRoute
        rw [if_neg hg]
        show (if (Sar.collectCands search
              ((Sar.sampleIdxs stops.length).map fun i => stops.getD i ⟨0, 0⟩) [] []).isEmpty =
            true then ([] : List Sar.Scored) else _) = _
        rw [if_neg hc]
      rw [hE]
      have h1 := Sar.collectCands_nodup search
        ((Sar.sampleIdxs stops.length).map fun i => stops.getD i ⟨0, 0⟩) [] []
        ⟨by simp, by simp⟩
      have hnd : ((Sar.scoreCandidates mtx mode.toUpper
          (((Sar.sampleIdxs stops.length).map fun i => stops.getD i ⟨0, 0⟩).headD ⟨0, 0⟩)
          ((((Sar.sampleIdxs stops.length).map fun i =>
              stops.getD i ⟨0, 0⟩).getLast?).getD ⟨0, 0⟩)
          maxDetourMin
          (Sar.collectCands search
            ((Sar.sampleIdxs stops.length).map fun i =>
              stops.getD i ⟨0, 0⟩) [] [])).map (fun s => s.place_id)).Nodup :=
        h1.sublist (Sar.scoreCandidates_pid_sublist mtx mode.toUpper
          (((Sar.sampleIdxs stops.length).map fun i => stops.getD i ⟨0, 0⟩).headD ⟨0, 0⟩)
          ((((Sar.sampleIdxs stops.length).map fun i =>
              stops.getD i ⟨0, 0⟩).getLast?).getD ⟨0, 0⟩)
          maxDetourMin
          (Sar.collectCands search
            ((Sar.sampleIdxs stops.length).map fun i => stops.getD i ⟨0, 0⟩) [] []))
      exact Sar.sar_take_invariants _ maxResults maxDetourMin
        (Sar.scoreCandidates_detour_le mtx mode.toUpper
          (((Sar.sampleIdxs stops.length).map fun i => stops.getD i ⟨0, 0⟩).headD ⟨0, 0⟩)
          ((((Sar.sampleIdxs stops.length).map fun i =>
              stops.getD i ⟨0, 0⟩).getLast?).getD ⟨0, 0⟩)
          maxDetourMin
          (Sar.collectCands search
            ((Sar.sampleIdxs stops.length).map fun i => stops.getD i ⟨0, 0⟩) [] []))
        hnd

/-! Section: claim C7 (the detour computation and its provenance) -/

namespace MatrixCache

theorem getMatrixCache_hit_of_fresh {α : Type} (store : Store α) (now : ℚ) (mode : Chars)
    (pts : List Pt) (iso : Option ℚ) (e : Chars × ℚ × α)
    (hf : store.find? (fun x => x.1 == mkey mode pts iso now) = some e)
    (hfresh : ¬ now - e.2.1 > 60000) :
    (getMatrixCache store now mode pts iso).hit = some e.2.2 := by
  unfold getMatrixCache
  simp only [hf]
  rw [if_neg hfresh]

theorem getMatrixCache_miss_of_absent {α : Type} (store : Store α) (now : ℚ) (mode : Chars)
    (pts : List Pt) (iso : Option ℚ)
    (hf : store.find? (fun x => x.1 == mkey mode pts iso now) = none) :
    getMatrixCache store now mode pts iso = ⟨none, mkey mode pts iso now, store⟩ := by
  unfold getMatrixCache
  simp only [hf]

theorem getMatrixCache_evict_of_stale {α : Type} (store : Store α) (now : ℚ) (mode : Chars)
    (pts : List Pt) (iso : Option ℚ) (e : Chars × ℚ × α)
    (hf : store.find? (fun x => x.1 == mkey mode pts iso now) = some e)
    (hstale : now - e.2.1 > 60000) :
    getMatrixCache store now mode pts iso =
      ⟨none, mkey mode pts iso now,
        store.eraseP (fun x => x.1 == mkey mode pts iso now)⟩ := by
  unfold getMatrixCache
  simp only [hf]
  rw [if_pos hstale]

end MatrixCache

/-- Claim C7 is refuted on its provenance part: `searchAlongRoute` calls
the matrix provider directly, so when the Matrix Cache holds a fresh entry
for the 3-point set with a different matrix, the cache-first computation
prescribed by the spec disagrees with what the code uses. -/
theorem C7_counterexample : ¬ C7Stated := by
  intro h
  have h2 := h [(MatrixCache.mkey "DRIVE".data [⟨0, 0⟩, ⟨0, 0⟩, ⟨0, 0⟩] none 0, 0, [[some 1]])]
    0 (fun _ _ => some [[some 2]]) "DRIVE" ⟨0, 0⟩ ⟨0, 0⟩ ⟨0, 0⟩
  have hfind : ([(MatrixCache.mkey "DRIVE".data [⟨0, 0⟩, ⟨0, 0⟩, ⟨0, 0⟩] none 0, 0,
      [[some (1 : ℚ)]])] : MatrixCache.Store Sar.DurMatrix).find?
      (fun x => x.1 == MatrixCache.mkey "DRIVE".data [⟨0, 0⟩, ⟨0, 0⟩, ⟨0, 0⟩] none 0) =
      some (MatrixCache.mkey "DRIVE".data [⟨0, 0⟩, ⟨0, 0⟩, ⟨0, 0⟩] none 0, 0, [[some 1]]) := by
    rw [List.find?_cons_of_pos _ (by simp)]
  have hhit := MatrixCache.getMatrixCache_hit_of_fresh
    [(MatrixCache.mkey "DRIVE".data [⟨0, 0⟩, ⟨0, 0⟩, ⟨0, 0⟩] none 0, 0, [[some 1]])]
    0 "DRIVE".data [⟨0, 0⟩, ⟨0, 0⟩, ⟨0, 0⟩] none
    (MatrixCache.mkey "DRIVE".data [⟨0, 0⟩, ⟨0, 0⟩, ⟨0, 0⟩] none 0, 0, [[some 1]])
    hfind (by norm_num)
  have hspec : Sar.specCacheFirstLegs
      [(MatrixCache.mkey "DRIVE".data [⟨0, 0⟩, ⟨0, 0⟩, ⟨0, 0⟩] none 0, 0, [[some 1]])] 0
      (fun _ _ => some [[some 2]]) "DRIVE" ⟨0, 0⟩ ⟨0, 0⟩ ⟨0, 0⟩ = some [[some 1]] := by
    simp only [Sar.specCacheFirstLegs, hhit]
  rw [hspec] at h2
  norm_num at h2

/-- C7 (amended): for each SAR candidate the detour is computed from a
3-point duration matrix obtained by calling the matrix provider directly
(not via the Matrix Cache): a failed matrix call discards the candidate, a
non-finite leg discards the candidate, finite legs yield
`detour_min = max 0 (round(((o→c) + (c→d) − (o→d)) / 60))` kept iff within
`maxDetourMin`; a non-positive detour is clamped to zero; and legs of 300 s
and 400 s against a direct 600 s give `detour_s = 100` and
`detour_min = 2`. -/
theorem C7_detour_amended :
    (∀ (c : Sar.RawPlace) (cpt : Pt) (mdm : ℚ), Sar.scoreOne none c cpt mdm = none) ∧
    (∀ (m : Sar.DurMatrix) (c : Sar.RawPlace) (cpt : Pt) (mdm : ℚ),
      (Sar.mat m 0 1 = none ∨ Sar.mat m 1 2 = none ∨ Sar.mat m 0 2 = none) →
      Sar.scoreOne (some m) c cpt mdm = none) ∧
    (∀ (m : Sar.DurMatrix) (c : Sar.RawPlace) (cpt : Pt) (mdm o_c c_d o_d : ℚ),
      Sar.mat m 0 1 = some o_c → Sar.mat m 1 2 = some c_d → Sar.mat m 0 2 = some o_d →
      (Sar.detour_min (Sar.detour_s o_c c_d o_d) : ℚ) ≤ mdm →
      Sar.scoreOne (some m) c cpt mdm =
        some ⟨c.id.getD "", Sar.jsOrStr c.displayName c.name, c.rating, c.userRatingCount,
          cpt, Sar.detour_min (Sar.detour_s o_c c_d o_d)⟩) ∧
    (∀ ds : ℚ, ds ≤ 0 → Sar.detour_min ds = 0) ∧
    (Sar.detour_s 300 400 600 = 100 ∧ Sar.detour_min 100 = 2) := by
  refine ⟨fun c cpt mdm => rfl, ?_, ?_, ?_, ?_, ?_⟩
  · intro m c cpt mdm h
    rcases h with h | h | h
    · simp only [Sar.scoreOne, h]
    · cases h01 : Sar.mat m 0 1 <;> simp only [Sar.scoreOne, h01, h]
    · cases h01 : Sar.mat m 0 1 <;> cases h12 : Sar.mat m 1 2 <;>
        simp only [Sar.scoreOne, h01, h12, h]
  · intro m c cpt mdm o_c c_d o_d h01 h12 h02 hle
    simp only [Sar.scoreOne, h01, h12, h02]
    rw [if_pos hle]
  · intro ds h
    have hr : round (ds / 60) ≤ 0 := by
      rw [round_eq]
      have h60 : ds / 60 ≤ 0 := div_nonpos_of_nonpos_of_nonneg h (by norm_num)
      calc ⌊ds / 60 + 1 / 2⌋ ≤ ⌊(1 : ℚ) / 2⌋ := Int.floor_mono (by linarith)
        _ = 0 := by norm_num
    exact max_eq_left hr
  · norm_num [Sar.detour_s]
  · norm_num [Sar.detour_min, Sar.detour_s, round_eq]

/-- Witness for C7 (amended) at the concrete example matrix: legs 300 s and
400 s against a direct 600 s keep the candidate with `detour_min = 2`. -/
theorem C7_detour_amended_witness :
    Sar.scoreOne (some [[none, some 300, some 600], [none, none, some 400]])
        ⟨some "p1", none, none, none, none, none, none, none, none⟩ ⟨1, 1⟩ 5 =
      some ⟨"p1", none, none, none, ⟨1, 1⟩, Sar.detour_min (Sar.detour_s 300 400 600)⟩ ∧
    Sar.detour_min (Sar.detour_s 300 400 600) = 2 := by
  have h := C7_detour_amended
  constructor
  · exact h.2.2.1 [[none, some 300, some 600], [none, none, some 400]]
      ⟨some "p1", none, none, none, none, none, none, none, none⟩ ⟨1, 1⟩ 5 300 400 600
      rfl rfl rfl (by rw [h.2.2.2.2.1, h.2.2.2.2.2]; norm_num)
  · rw [h.2.2.2.2.1]
    exact h.2.2.2.2.2

/-! Section: claim C8 (the matrix cache TTL boundary) -/

/-- Claim C8 is refuted at the boundary: an entry whose age is exactly
60 000 ms still hits (the code expires only when `now − t > 60000`),
contradicting validity `now − insertedAt < 60s`. -/
theorem C8_counterexample : ¬ C8Stated := by
  intro h
  have hfind : ([(MatrixCache.mkey [] [] (some 0) 60000, 0, 7)] :
      MatrixCache.Store ℕ).find?
      (fun x => x.1 == MatrixCache.mkey [] [] (some 0) 60000) =
      some (MatrixCache.mkey [] [] (some 0) 60000, 0, 7) := by
    rw [List.find?_cons_of_pos _ (by simp)]
  have h2 := h [(MatrixCache.mkey [] [] (some 0) 60000, 0, 7)] 60000 [] [] (some 0)
    (MatrixCache.mkey [] [] (some 0) 60000, 0, 7) hfind
  have hhit := MatrixCache.getMatrixCache_hit_of_fresh
    [(MatrixCache.mkey [] [] (some 0) 60000, 0, 7)] 60000 [] [] (some 0)
    (MatrixCache.mkey [] [] (some 0) 60000, 0, 7) hfind (by norm_num)
  have h3 := h2.mp (by rw [hhit]; rfl)
  norm_num at h3

/-- C8 (amended): a matrix cache probe misses and leaves the store intact
when the key is absent; a bound entry hits iff `now − insertedAt ≤ 60000`
(the 60 s boundary itself still hits); an entry older than 60 s misses and
is evicted lazily via `eraseP`; and a probe whose departure time falls in
a different 5-minute bucket than the stored entry always misses, because
the bucket is part of the key. -/
theorem C8_ttl_amended :
    (∀ (store : MatrixCache.Store ℕ) (now : ℚ) (mode : Chars) (pts : List Pt)
        (iso : Option ℚ),
      store.find? (fun x => x.1 == MatrixCache.mkey mode pts iso now) = none →
      MatrixCache.getMatrixCache store now mode pts iso =
        ⟨none, MatrixCache.mkey mode pts iso now, store⟩) ∧
    (∀ (store : MatrixCache.Store ℕ) (now : ℚ) (mode : Chars) (pts : List Pt)
        (iso : Option ℚ) (e : Chars × ℚ × ℕ),
      store.find? (fun x => x.1 == MatrixCache.mkey mode pts iso now) = some e →
      ((MatrixCache.getMatrixCache store now mode pts iso).hit.isSome = true ↔
        now - e.2.1 ≤ 60000)) ∧
    (∀ (store : MatrixCache.Store ℕ) (now : ℚ) (mode : Chars) (pts : List Pt)
        (iso : Option ℚ) (e : Chars × ℚ × ℕ),
      store.find? (fun x => x.1 == MatrixCache.mkey mode pts iso now) = some e →
      now - e.2.1 > 60000 →
      MatrixCache.getMatrixCache store now mode pts iso =
        ⟨none, MatrixCache.mkey mode pts iso now,
          store.eraseP (fun x => x.1 == MatrixCache.mkey mode pts iso now)⟩) ∧
    (∀ (t : ℚ) (v : ℕ) (mode : Chars) (pts : List Pt) (iso1 : Option ℚ) (now1 : ℚ)
        (iso2 : Option ℚ) (now2 : ℚ),
      MatrixCache.timeBucket iso1 now1 ≠ MatrixCache.timeBucket iso2 now2 →
      (MatrixCache.getMatrixCache [(MatrixCache.mkey mode pts iso1 now1, t, v)]
        now2 mode pts iso2).hit = none) := by
  refine ⟨?_, ?_, ?_, ?_⟩
  · intro store now mode pts iso hf
    exact MatrixCache.getMatrixCache_miss_of_absent store now mode pts iso hf
  · intro store now mode pts iso e hf
    by_cases hstale : now - e.2.1 > 60000
    · rw [MatrixCache.getMatrixCache_evict_of_stale store now mode pts iso e hf hstale]
      exact iff_of_false (by simp) (by linarith)
    · rw [MatrixCache.getMatrixCache_hit_of_fresh store now mode pts iso e hf hstale]
      exact iff_of_true rfl (not_lt.mp hstale)
  · intro store now mode pts iso e hf hstale
    exact MatrixCache.getMatrixCache_evict_of_stale store now mode pts iso e hf hstale
  · intro t v mode pts iso1 now1 iso2 now2 hne
    have hk : (MatrixCache.mkey mode pts iso1 now1 ==
        MatrixCache.mkey mode pts iso2 now2) = false :=
      beq_eq_false_iff_ne.mpr (MatrixCache.mkey_ne_of_bucket_ne hne)
    have hfind : ([(MatrixCache.mkey mode pts iso1 now1, t, v)] :
        MatrixCache.Store ℕ).find?
        (fun x => x.1 == MatrixCache.mkey mode pts iso2 now2) = none := by
      rw [List.find?_cons_of_neg _ (by simpa using hk)]
      rfl
    rw [MatrixCache.getMatrixCache_miss_of_absent _ _ _ _ _ hfind]

/-- Witness for C8 (amended): a probe for a departure time one bucket over
misses even though the entry is fresh. -/
theorem C8_ttl_amended_witness :
    (MatrixCache.getMatrixCache [(MatrixCache.mkey [] [] (some 0) 0, 0, 7)] 0 [] []
      (some 300000)).hit = none :=
  C8_ttl_amended.2.2.2 0 7 [] [] (some 0) 0 (some 300000) 0
    (by norm_num [MatrixCache.timeBucket])

/-- Witness for C6 at a concrete instantiation: with every search failing,
the result respects the `maxResults` bound (and the other invariants hold
by the same theorem). -/
theorem C6_sar_invariants_witness :
    (Sar.searchAlongRoute (fun _ => none) (fun _ _ => none) "cafe" 3 10
        [⟨0, 0⟩, ⟨1, 1⟩] "drive").length ≤ 3 ∧
    ((Sar.searchAlongRoute (fun _ => none) (fun _ _ => none) "cafe" 3 10
        [⟨0, 0⟩, ⟨1, 1⟩] "drive").map (fun s => s.place_id)).Nodup := by
  have h := C6_sar_invariants (fun _ => none) (fun _ _ => none) "cafe" 3 10
    [⟨0, 0⟩, ⟨1, 1⟩] "drive"
  exact ⟨h.2.2.2, h.2.1⟩

end Roam
